import Mathlib

/-!
Lumi: the focus/break timer and the auto-hide controller.

A shallow embedding of the timer state machine of `src/lumi-app/timer.js`
(desktop variant) and `src/timer.js` (terminal variant), and of the
cursor-driven hide/show handler of `src/lumi-app/timer.js`.

Conventions of the embedding

* The module-level `let` variables of a file become the fields of one record;
  every function of the file becomes a function from record to record.
* A JavaScript number that the program computes is an integer-valued double,
  an infinity or `NaN` (`parseInt` produces nothing else, and the program only
  multiplies by 60 and decrements), so numbers are `JSNum`.  Every operation
  that produces a number rounds its exact result to the nearest double, ties to
  the even significand, and overflows to an infinity (`toDouble`); below `2^53`
  nothing is rounded.  The zero with a minus sign is not told apart from zero:
  the program never divides by a number or prints one that could be it.
* The host's timer table (`setInterval`, `setTimeout`, `clearInterval`,
  `clearTimeout`) is part of the record: registered tick sources and pending
  one-shot callbacks are lists, handles are fresh numbers.
* Rendering (`updateDisplay`, `displayTimer`, CSS classes) and the writes to
  `localStorage` change none of the variables modelled and are left out.
-/

namespace Lumi

/-! ## JavaScript numbers and `parseInt` -/

/-- A JavaScript number as this program can produce it: `NaN`, an integer
(held in a double), or one of the two infinities. -/
inductive JSNum
  | nan
  | num (n : Int)
  | posInf
  | negInf
deriving DecidableEq, Repr

/-- The distance between neighbouring doubles around the magnitude `m`, found
by halving: 1 below `2^53`, and twice the distance at `m / 2` from there on.
The first argument bounds the number of halvings. -/
def spacing : Nat → Nat → Nat
  | 0, _ => 1
  | fuel + 1, m => if m < 2 ^ 53 then 1 else 2 * spacing fuel (m / 2)

/-- The distance between neighbouring doubles around the magnitude `m`; `m`
halvings are more than enough. -/
def ulp (m : Nat) : Nat := spacing m m

/-- The magnitude of the double nearest to the magnitude `m`: the nearer of
the two neighbouring multiples of `ulp m`, and of two equally near ones the one
with the even significand. -/
def roundNat (m : Nat) : Nat :=
  let u := ulp m
  let q := m / u
  let r := m % u
  if 2 * r < u ∨ (2 * r = u ∧ q % 2 = 0) then q * u else (q + 1) * u

/-- The bound `2^1024`: a magnitude that rounds to it or beyond is an
infinity. -/
def doubleLimit : Nat := 2 ^ 256 * 2 ^ 256 * 2 ^ 256 * 2 ^ 256

/-- The double that holds the exact integer result `n` of an operation:
rounded to the nearest double, an infinity on overflow. -/
def toDouble (n : Int) : JSNum :=
  if doubleLimit ≤ roundNat n.natAbs then
    if n < 0 then JSNum.negInf else JSNum.posInf
  else
    JSNum.num (if n < 0 then -(roundNat n.natAbs : Int) else (roundNat n.natAbs : Int))

namespace JSNum

/-- The comparison `x > 0`; false for `NaN`. -/
def gtZero : JSNum → Bool
  | num n => decide (0 < n)
  | posInf => true
  | nan => false
  | negInf => false

/-- The decrement `x--`: the exact difference rounded to a double; `NaN` and
the infinities stay what they are. -/
def dec : JSNum → JSNum
  | num n => toDouble (n - 1)
  | x => x

/-- The product `x * 60`: the exact product rounded to a double; `NaN` and the
infinities stay what they are. -/
def mul60 : JSNum → JSNum
  | num n => toDouble (n * 60)
  | x => x

/-- The relation `a <= b` of JavaScript; false as soon as one side is `NaN`. -/
def le : JSNum → JSNum → Prop
  | num a, num b => a ≤ b
  | negInf, num _ => True
  | negInf, negInf => True
  | negInf, posInf => True
  | num _, posInf => True
  | posInf, posInf => True
  | _, _ => False

instance : (a b : JSNum) → Decidable (le a b)
  | num a, num b => inferInstanceAs (Decidable (a ≤ b))
  | negInf, num _ => isTrue trivial
  | negInf, negInf => isTrue trivial
  | negInf, posInf => isTrue trivial
  | num _, posInf => isTrue trivial
  | posInf, posInf => isTrue trivial
  | nan, _ => isFalse (fun h => by cases h)
  | num _, nan => isFalse (fun h => by cases h)
  | num _, negInf => isFalse (fun h => by cases h)
  | posInf, nan => isFalse (fun h => by cases h)
  | posInf, num _ => isFalse (fun h => by cases h)
  | posInf, negInf => isFalse (fun h => by cases h)
  | negInf, nan => isFalse (fun h => by cases h)

/-- Truthiness of a number: `NaN` and zero are falsy. -/
def truthy : JSNum → Bool
  | nan => false
  | num n => decide (n ≠ 0)
  | posInf => true
  | negInf => true

/-- The function `Math.min` on two numbers. -/
def mathMin : JSNum → JSNum → JSNum
  | nan, _ => nan
  | _, nan => nan
  | negInf, _ => negInf
  | _, negInf => negInf
  | posInf, b => b
  | a, posInf => a
  | num a, num b => num (min a b)

/-- The function `Math.max` on two numbers. -/
def mathMax : JSNum → JSNum → JSNum
  | nan, _ => nan
  | _, nan => nan
  | posInf, _ => posInf
  | _, posInf => posInf
  | negInf, b => b
  | a, negInf => a
  | num a, num b => num (max a b)

/-- The text of a number, as assigning it to `input.value` writes it: decimal
digits for an integer.  (From `10^21` on JavaScript writes an exponent; the
only numbers written here lie between 1 and 120.) -/
def toText : JSNum → String
  | nan => "NaN"
  | num n => toString n
  | posInf => "Infinity"
  | negInf => "-Infinity"

end JSNum

/-- White space that `parseInt` skips at the start of its argument. -/
def isStrWhiteSpaceChar (c : Char) : Bool :=
  c.toNat = 9 || c.toNat = 10 || c.toNat = 11 || c.toNat = 12 || c.toNat = 13 ||
  c.toNat = 32 || c.toNat = 160 || c.toNat = 5760 ||
  (8192 ≤ c.toNat && c.toNat ≤ 8202) ||
  c.toNat = 8232 || c.toNat = 8233 || c.toNat = 8239 || c.toNat = 8287 ||
  c.toNat = 12288 || c.toNat = 65279

/-- The value of `c` as a digit of the given radix, if it is one. -/
def radixDigit (radix : Nat) (c : Char) : Option Nat :=
  let v : Option Nat :=
    if 48 ≤ c.toNat ∧ c.toNat ≤ 57 then some (c.toNat - 48)
    else if 97 ≤ c.toNat ∧ c.toNat ≤ 122 then some (c.toNat - 87)
    else if 65 ≤ c.toNat ∧ c.toNat ≤ 90 then some (c.toNat - 55)
    else none
  match v with
  | some d => if d < radix then some d else none
  | none => none

/-- The longest run of radix digits at the start of the text. -/
def leadingDigits (radix : Nat) : List Char → List Nat
  | [] => []
  | c :: cs =>
    match radixDigit radix c with
    | some d => d :: leadingDigits radix cs
    | none => []

/-- The number written by a list of digits, most significant first. -/
def digitsValue (radix : Nat) (ds : List Nat) : Nat :=
  ds.foldl (fun acc d => acc * radix + d) 0

/-- Removes one leading sign; the flag tells whether it was a minus. -/
def stripSign : List Char → Bool × List Char
  | [] => (false, [])
  | c :: cs =>
    if c.toNat = 45 then (true, cs)
    else if c.toNat = 43 then (false, cs)
    else (false, c :: cs)

/-- Removes a leading `0x` or `0X` and then reads base 16, else base 10. -/
def stripRadix : List Char → Nat × List Char
  | c :: d :: cs =>
    if c.toNat = 48 ∧ (d.toNat = 120 ∨ d.toNat = 88) then (16, cs) else (10, c :: d :: cs)
  | cs => (10, cs)

/-- The built-in `parseInt(string)` called without a radix: skip white space,
take a sign, take `0x`, read the longest digit run; `NaN` when that run is
empty, else the double nearest to the integer read. -/
def parseInt (input : String) : JSNum :=
  let trimmed := input.toList.dropWhile isStrWhiteSpaceChar
  let signed := stripSign trimmed
  let based := stripRadix signed.2
  let z := leadingDigits based.1 based.2
  if z.isEmpty then JSNum.nan
  else
    let m : Int := (digitsValue based.1 z : Nat)
    toDouble (if signed.1 then -m else m)

/-- Truthiness of a value read from `localStorage`: `null` and the empty
string are falsy. -/
def truthyStored : Option String → Bool
  | none => false
  | some s => !s.isEmpty

/-! ## The desktop timer (`src/lumi-app/timer.js`) -/

/-- The two values of `mode`: the strings `"focus"` and `"break"`. -/
inductive Mode
  | focus
  | brk
deriving DecidableEq, Repr

/-- An entry of the host's timer table: its handle and its period or delay in
milliseconds. -/
structure Timer where
  id : Nat
  ms : Nat
deriving DecidableEq, Repr

/-- What `clearInterval(handle)` / `clearTimeout(handle)` leaves of a table;
a `null` handle clears nothing. -/
def clearTimer (handle : Option Nat) (table : List Timer) : List Timer :=
  match handle with
  | none => table
  | some h => table.filter (fun t => t.id ≠ h)

namespace Desktop

/-- The state variables of `src/lumi-app/timer.js` that the timer logic uses,
and the host's timer table: `intervals` are the callbacks registered with
`setInterval(tick, ms)`, `timeouts` the pending `setTimeout(() => start(), ms)`
callbacks, `nextId` the next fresh handle. -/
structure TimerState where
  focusDuration : JSNum
  breakDuration : JSNum
  currentTime : JSNum
  totalTime : JSNum
  isRunning : Bool
  interval : Option Nat
  mode : Mode
  autoStartBreak : Bool
  autoStartFocus : Bool
  intervals : List Timer
  timeouts : List Timer
  nextId : Nat
deriving DecidableEq, Repr

/-- The values of the module-level declarations (lines 5 to 15). -/
def initial : TimerState where
  focusDuration := JSNum.num (25 * 60)
  breakDuration := JSNum.num (5 * 60)
  currentTime := JSNum.num (25 * 60)
  totalTime := JSNum.num (25 * 60)
  isRunning := false
  interval := none
  mode := Mode.focus
  autoStartBreak := false
  autoStartFocus := false
  intervals := []
  timeouts := []
  nextId := 1

/-- The function `start()`. -/
def start (s : TimerState) : TimerState :=
  if !s.isRunning then
    { s with
      isRunning := true
      interval := some s.nextId
      intervals := s.intervals ++ [⟨s.nextId, 1000⟩]
      nextId := s.nextId + 1 }
  else s

/-- The function `pause()`. -/
def pause (s : TimerState) : TimerState :=
  if s.isRunning then
    { s with isRunning := false, intervals := clearTimer s.interval s.intervals }
  else s

/-- The statement `setTimeout(() => start(), ms)`. -/
def scheduleStart (ms : Nat) (s : TimerState) : TimerState :=
  { s with timeouts := s.timeouts ++ [⟨s.nextId, ms⟩], nextId := s.nextId + 1 }

/-- The function `timeUp()`. -/
def timeUp (s : TimerState) : TimerState :=
  let s1 := pause s
  match s1.mode with
  | Mode.focus =>
    let s2 := { s1 with mode := Mode.brk, currentTime := s1.breakDuration,
                        totalTime := s1.breakDuration }
    if s2.autoStartBreak then scheduleStart 1000 s2 else s2
  | Mode.brk =>
    let s2 := { s1 with mode := Mode.focus, currentTime := s1.focusDuration,
                        totalTime := s1.focusDuration }
    if s2.autoStartFocus then scheduleStart 1000 s2 else s2

/-- The function `tick()`. -/
def tick (s : TimerState) : TimerState :=
  if s.currentTime.gtZero then { s with currentTime := s.currentTime.dec }
  else timeUp s

/-- The function `toggleTimer()`. -/
def toggleTimer (s : TimerState) : TimerState :=
  if s.isRunning then pause s else start s

/-- The function `skipMode()`. -/
def skipMode (s : TimerState) : TimerState :=
  let s1 := pause s
  match s1.mode with
  | Mode.focus =>
    { s1 with mode := Mode.brk, currentTime := s1.breakDuration,
              totalTime := s1.breakDuration }
  | Mode.brk =>
    { s1 with mode := Mode.focus, currentTime := s1.focusDuration,
              totalTime := s1.focusDuration }

/-- The function `finishEdit(type)`: its argument `inputValue` is the text of
the input field when it is called, its result the text it writes back
(`input.value = value`). -/
def finishEdit (type : String) (inputValue : String) : String :=
  let parsed := parseInt inputValue
  -- `parseInt(input.value) || 1`: `NaN` and `0` are falsy
  let value : JSNum := if parsed.truthy then parsed else JSNum.num 1
  let clamped : JSNum :=
    if type = "focus" then JSNum.mathMax (JSNum.num 1) (JSNum.mathMin (JSNum.num 120) value)
    else JSNum.mathMax (JSNum.num 1) (JSNum.mathMin (JSNum.num 60) value)
  clamped.toText

/-- The function `loadSettings()`; its first four arguments are what
`localStorage.getItem` returns for the four keys (`none` is `null`). -/
def loadSettings (savedFocus savedBreak savedAutoFocus savedAutoBreak : Option String)
    (s : TimerState) : TimerState :=
  let s1 :=
    if truthyStored savedFocus then
      { s with focusDuration := parseInt (savedFocus.getD "") }
    else s
  let s2 :=
    if truthyStored savedBreak then
      { s1 with breakDuration := parseInt (savedBreak.getD "") }
    else s1
  let s3 :=
    match savedAutoFocus with
    | some v => { s2 with autoStartFocus := decide (v = "true") }
    | none => s2
  let s4 :=
    match savedAutoBreak with
    | some v => { s3 with autoStartBreak := decide (v = "true") }
    | none => s3
  if !s4.isRunning && decide (s4.mode = Mode.focus) then
    { s4 with currentTime := s4.focusDuration, totalTime := s4.focusDuration }
  else s4

/-- The function `saveSettings()`; `focusInput` and `breakInput` are the texts
of the two input fields, the two flags the states of the two check boxes. -/
def saveSettings (focusInput breakInput : String) (autoBreakChecked autoFocusChecked : Bool)
    (s : TimerState) : TimerState :=
  let focusMin := parseInt focusInput
  let breakMin := parseInt breakInput
  let s1 :=
    { s with
      focusDuration := focusMin.mul60
      breakDuration := breakMin.mul60
      autoStartBreak := autoBreakChecked
      autoStartFocus := autoFocusChecked }
  if !s1.isRunning then
    match s1.mode with
    | Mode.focus => { s1 with currentTime := s1.focusDuration, totalTime := s1.focusDuration }
    | Mode.brk => { s1 with currentTime := s1.breakDuration, totalTime := s1.breakDuration }
  else s1

/-- The host runs the pending `() => start()` callback whose handle is `id`;
nothing happens when no such callback is pending. -/
def fireTimeout (id : Nat) (s : TimerState) : TimerState :=
  if s.timeouts.any (fun t => t.id = id) then
    start { s with timeouts := clearTimer (some id) s.timeouts }
  else s

/-- What can happen to the desktop timer: a call of one of its functions by
the interval source or a control, or the host firing a pending callback. -/
inductive Action
  | tick
  | start
  | pause
  | toggleTimer
  | skipMode
  | saveSettings (focusInput breakInput : String) (autoBreakChecked autoFocusChecked : Bool)
  | fireTimeout (id : Nat)
deriving DecidableEq, Repr

/-- One action applied to a state. -/
def step (s : TimerState) : Action → TimerState
  | Action.tick => tick s
  | Action.start => start s
  | Action.pause => pause s
  | Action.toggleTimer => toggleTimer s
  | Action.skipMode => skipMode s
  | Action.saveSettings f b ab af => saveSettings f b ab af s
  | Action.fireTimeout id => fireTimeout id s

/-- A sequence of actions applied from left to right. -/
def run (s : TimerState) (actions : List Action) : TimerState :=
  actions.foldl step s

/-- The state after `n` consecutive calls of `tick()`. -/
def ticks : Nat → TimerState → TimerState
  | 0, s => s
  | n + 1, s => ticks n (tick s)

/-- The number of registered tick sources of period one second. -/
def tickSources (s : TimerState) : Nat :=
  (s.intervals.filter (fun t => t.ms = 1000)).length

/-- A text that `parseInt` reads as an integer that is not negative (one too
large for a double is read as the positive infinity). -/
def nonNegText (text : String) : Bool :=
  match parseInt text with
  | JSNum.num n => decide (0 ≤ n)
  | JSNum.posInf => true
  | JSNum.nan => false
  | JSNum.negInf => false

/-- A stored duration that is absent, empty, or a non-negative integer. -/
def storedOk (v : Option String) : Bool :=
  !truthyStored v || nonNegText (v.getD "")

/-- An action whose minute inputs, if it has any, are non-negative integers. -/
def Action.inputsOk : Action → Bool
  | Action.saveSettings f b _ _ => nonNegText f && nonNegText b
  | _ => true

end Desktop

/-! ## The terminal timer (`src/timer.js`) -/

namespace Terminal

/-- The state variables of `src/timer.js` and the registered
`setInterval(tick, ms)` callbacks of the host. -/
structure TimerState where
  focusDuration : JSNum
  breakDuration : JSNum
  currentTime : JSNum
  isRunning : Bool
  interval : Option Nat
  mode : Mode
  intervals : List Timer
  nextId : Nat
deriving DecidableEq, Repr

/-- The values of the module-level declarations (lines 7 to 14). -/
def initial : TimerState where
  focusDuration := JSNum.num (25 * 60)
  breakDuration := JSNum.num (5 * 60)
  currentTime := JSNum.num (25 * 60)
  isRunning := false
  interval := none
  mode := Mode.focus
  intervals := []
  nextId := 1

/-- The function `start()`. -/
def start (s : TimerState) : TimerState :=
  if !s.isRunning then
    { s with
      isRunning := true
      interval := some s.nextId
      intervals := s.intervals ++ [⟨s.nextId, 1000⟩]
      nextId := s.nextId + 1 }
  else s

/-- The function `pause()`. -/
def pause (s : TimerState) : TimerState :=
  if s.isRunning then
    { s with isRunning := false, intervals := clearTimer s.interval s.intervals }
  else s

/-- The function `timeUp()`. -/
def timeUp (s : TimerState) : TimerState :=
  let s1 := pause s
  match s1.mode with
  | Mode.focus => { s1 with mode := Mode.brk, currentTime := s1.breakDuration }
  | Mode.brk => { s1 with mode := Mode.focus, currentTime := s1.focusDuration }

/-- The function `tick()`. -/
def tick (s : TimerState) : TimerState :=
  if s.currentTime.gtZero then { s with currentTime := s.currentTime.dec }
  else timeUp s

/-- The function `skip()`. -/
def skip (s : TimerState) : TimerState :=
  let s1 := pause s
  match s1.mode with
  | Mode.focus => { s1 with mode := Mode.brk, currentTime := s1.breakDuration }
  | Mode.brk => { s1 with mode := Mode.focus, currentTime := s1.focusDuration }

/-- The method `text.padStart(targetLength, fill)` for a fill of one
character: `fill` is put in front until the text has `targetLength`
characters; a text that long already is returned as it is. -/
def padStart (targetLength : Nat) (fill : Char) (text : String) : String :=
  String.mk (List.replicate (targetLength - text.length) fill) ++ text

/-- The function `formatTime(totalSeconds)` of `src/timer.js` (lines 22 to 35)
on a non-negative integer; `Math.floor` of a quotient of such integers is the
division of `Nat`. -/
def formatTime (totalSeconds : Nat) : String :=
  let hours := totalSeconds / 3600
  let minutes := (totalSeconds % 3600) / 60
  let seconds := totalSeconds % 60
  let h := padStart 2 '0' (toString hours)
  let m := padStart 2 '0' (toString minutes)
  let s := padStart 2 '0' (toString seconds)
  h ++ ":" ++ m ++ ":" ++ s

/-- What can happen to the terminal timer: a tick of the interval source or
one of the keys `r`, `p`, `k`. -/
inductive Action
  | tick
  | start
  | pause
  | skip
deriving DecidableEq, Repr

/-- One action applied to a state. -/
def step (s : TimerState) : Action → TimerState
  | Action.tick => tick s
  | Action.start => start s
  | Action.pause => pause s
  | Action.skip => skip s

/-- A sequence of actions applied from left to right. -/
def run (s : TimerState) (actions : List Action) : TimerState :=
  actions.foldl step s

/-- The state after `n` consecutive calls of `tick()`. -/
def ticks : Nat → TimerState → TimerState
  | 0, s => s
  | n + 1, s => ticks n (tick s)

/-- The number of registered tick sources of period one second. -/
def tickSources (s : TimerState) : Nat :=
  (s.intervals.filter (fun t => t.ms = 1000)).length

end Terminal

/-! ## The hide/show handler (`src/lumi-app/timer.js`, lines 312 to 393) -/

namespace Visibility

/-- The fields of the `data` object of a `global-mouse-move` message that the
hide/show handler reads. -/
structure Sample where
  mouseX : Int
  mouseY : Int
  screenWidth : Int
  indicatorY : Int
  indicatorHeight : Int
  winX : Int
  winY : Int
  winWidth : Int
  winHeight : Int
deriving DecidableEq, Repr

/-- The messages `ipcRenderer.send` passes to the main process. -/
inductive Command
  | showWindow
  | hideWindow
deriving DecidableEq, Repr

/-- The two arrow functions the handler gives to `setTimeout`: the debounced
hide (line 383) and the reset of `isAnimating` (lines 377 and 388). -/
inductive Callback
  | debouncedHide
  | animationReset
deriving DecidableEq, Repr

/-- A pending `setTimeout` callback: its handle, its delay in milliseconds and
what it runs. -/
structure Pending where
  id : Nat
  ms : Nat
  callback : Callback
deriving DecidableEq, Repr

/-- The variables `isHidden`, `isPinned`, `isAnimating`, `showHideDebounce`,
the pending callbacks of the host, the next fresh handle, and the messages
sent to the main process so far, oldest first. -/
structure VisState where
  isHidden : Bool
  isPinned : Bool
  isAnimating : Bool
  showHideDebounce : Option Nat
  timeouts : List Pending
  nextId : Nat
  sent : List Command
deriving DecidableEq, Repr

/-- The values of the module-level declarations (lines 18, 19, 343, 344); the
host hands out handles from 1 on. -/
def initial : VisState where
  isHidden := false
  isPinned := true
  isAnimating := false
  showHideDebounce := none
  timeouts := []
  nextId := 1
  sent := []

/-- Truthiness of a timer handle: `null` and `0` are falsy. -/
def truthyHandle : Option Nat → Bool
  | none => false
  | some h => h != 0

/-- The call `clearTimeout(handle)`. -/
def clearTimeout (handle : Option Nat) (table : List Pending) : List Pending :=
  match handle with
  | none => table
  | some h => table.filter (fun t => t.id ≠ h)

/-- The call `setTimeout(callback, ms)`, whose result is the handle
`s.nextId`. -/
def setTimeout (callback : Callback) (ms : Nat) (s : VisState) : VisState :=
  { s with timeouts := s.timeouts ++ [⟨s.nextId, ms, callback⟩], nextId := s.nextId + 1 }

/-- The function `showApp()`. -/
def showApp (s : VisState) : VisState :=
  { s with isHidden := false, sent := s.sent ++ [Command.showWindow] }

/-- The function `hideApp()`. -/
def hideApp (s : VisState) : VisState :=
  { s with isHidden := true, sent := s.sent ++ [Command.hideWindow] }

/-- The function `toggleHideMode()`. -/
def toggleHideMode (s : VisState) : VisState :=
  if s.isHidden then showApp s else hideApp { s with isPinned := false }

/-- The function `pinApp()`. -/
def pinApp (s : VisState) : VisState :=
  showApp { s with isPinned := true }

/-- The test `isInIndicatorZone` of the handler. -/
def isInIndicatorZone (d : Sample) : Bool :=
  decide (d.mouseX ≥ d.screenWidth - 50) &&
  decide (d.mouseY ≥ d.indicatorY - 30) &&
  decide (d.mouseY ≤ d.indicatorY + d.indicatorHeight + 30)

/-- The test `isOverApp` of the handler. -/
def isOverApp (d : Sample) : Bool :=
  decide (d.mouseX ≥ d.winX - 20) &&
  decide (d.mouseX ≤ d.winX + d.winWidth + 20) &&
  decide (d.mouseY ≥ d.winY - 20) &&
  decide (d.mouseY ≤ d.winY + d.winHeight + 20)

/-- The second `global-mouse-move` handler (lines 346 to 393). -/
def onGlobalMouseMove (d : Sample) (s : VisState) : VisState :=
  if s.isPinned then s
  else
    let s1 :=
      if isOverApp d || isInIndicatorZone d then
        if truthyHandle s.showHideDebounce then
          { s with timeouts := clearTimeout s.showHideDebounce s.timeouts,
                   showHideDebounce := none }
        else s
      else s
    if s1.isHidden && !s1.isAnimating then
      if isInIndicatorZone d then
        setTimeout Callback.animationReset 500 (showApp { s1 with isAnimating := true })
      else s1
    else if !s1.isHidden && !s1.isAnimating then
      if !isOverApp d && !isInIndicatorZone d && !truthyHandle s1.showHideDebounce then
        { setTimeout Callback.debouncedHide 300 s1 with showHideDebounce := some s1.nextId }
      else s1
    else s1

/-- The body of a callback given to `setTimeout`. -/
def runCallback (s : VisState) : Callback → VisState
  | Callback.debouncedHide =>
    let s1 := { s with showHideDebounce := none }
    if !s1.isPinned && !s1.isHidden && !s1.isAnimating then
      setTimeout Callback.animationReset 500 (hideApp { s1 with isAnimating := true })
    else s1
  | Callback.animationReset => { s with isAnimating := false }

/-- The host runs the pending callback whose handle is `id` and drops it from
the table; nothing happens when no such callback is pending. -/
def fire (id : Nat) (s : VisState) : VisState :=
  match s.timeouts.find? (fun t => t.id = id) with
  | none => s
  | some t => runCallback { s with timeouts := clearTimeout (some id) s.timeouts } t.callback

/-- What the host delivers to the handler and its callbacks. -/
inductive Event
  | sample (d : Sample)
  | fire (id : Nat)
deriving DecidableEq, Repr

/-- One event applied to a state. -/
def step (s : VisState) : Event → VisState
  | Event.sample d => onGlobalMouseMove d s
  | Event.fire id => fire id s

/-- A sequence of events applied from left to right. -/
def run (s : VisState) (events : List Event) : VisState :=
  events.foldl step s

/-- A sequence of samples delivered to the handler, oldest first. -/
def feed (s : VisState) (samples : List Sample) : VisState :=
  samples.foldl (fun acc d => onGlobalMouseMove d acc) s

end Visibility

/-! ## Invariants -/

namespace Desktop

/-- The tick source is registered exactly while the timer runs: a running
timer has the one interval whose handle is in `interval`, of period one
second, a paused timer has none. -/
def TickSourceInv (s : TimerState) : Prop :=
  if s.isRunning then
    s.interval.isSome ∧ s.intervals = s.interval.toList.map (fun id => Timer.mk id 1000)
  else s.intervals = []

instance (s : TimerState) : Decidable (TickSourceInv s) := by
  unfold TickSourceInv
  infer_instance

/-- A number that counts seconds: the positive infinity, or a double holding
an integer that is not negative. -/
def IsCount (x : JSNum) : Prop :=
  x = JSNum.posInf ∨ ∃ n : Int, x = JSNum.num n ∧ 0 ≤ n ∧ toDouble n = JSNum.num n

/-- The durations, the remaining time and the total time count seconds, and
the remaining time is at most the total time. -/
def TimeInv (s : TimerState) : Prop :=
  IsCount s.focusDuration ∧ IsCount s.breakDuration ∧
  IsCount s.currentTime ∧ IsCount s.totalTime ∧
  JSNum.le s.currentTime s.totalTime

/-- The duration configured for a mode. -/
def durationOf (s : TimerState) : Mode → JSNum
  | Mode.focus => s.focusDuration
  | Mode.brk => s.breakDuration

end Desktop

namespace Terminal

/-- The tick source is registered exactly while the timer runs. -/
def TickSourceInv (s : TimerState) : Prop :=
  if s.isRunning then
    s.interval.isSome ∧ s.intervals = s.interval.toList.map (fun id => Timer.mk id 1000)
  else s.intervals = []

instance (s : TimerState) : Decidable (TickSourceInv s) := by
  unfold TickSourceInv
  infer_instance

end Terminal

namespace Visibility

/-- The state `s` with one debounced hide scheduled: the handle `s.nextId` is
pending with a delay of 300 ms and is held in `showHideDebounce`. -/
def armed (s : VisState) : VisState :=
  { s with
    showHideDebounce := some s.nextId
    timeouts := s.timeouts ++ [⟨s.nextId, 300, Callback.debouncedHide⟩]
    nextId := s.nextId + 1 }

/-- The state `s` after the debounced hide scheduled in `armed s` has run: the
window is hidden, one `hide-window` message more has been sent, and the reset
of `isAnimating` is pending with a delay of 500 ms. -/
def hiddenAfter (s : VisState) : VisState :=
  { s with
    isHidden := true
    isAnimating := true
    showHideDebounce := none
    sent := s.sent ++ [Command.hideWindow]
    timeouts := s.timeouts ++ [⟨s.nextId + 1, 500, Callback.animationReset⟩]
    nextId := s.nextId + 2 }

/-- The number of debounced hides that are pending. -/
def pendingHides (s : VisState) : Nat :=
  (s.timeouts.filter (fun t => t.callback = Callback.debouncedHide)).length

/-- A sample outside the padded window box and outside the indicator zone. -/
def outside (d : Sample) : Bool :=
  !isOverApp d && !isInIndicatorZone d

end Visibility

/-- The other mode. -/
def Mode.flip : Mode → Mode
  | Mode.focus => Mode.brk
  | Mode.brk => Mode.focus

end Lumi

namespace Lumi

/-! ## Rounding to a double -/

theorem log2_small (m : Nat) (h : m < 2 ^ 53) : Nat.log2 m - 52 = 0 := by
  by_cases hm : m = 0
  · subst hm; simp [Nat.log2]
  · have := (Nat.log2_lt hm).2 h
    omega

theorem log2_half (m : Nat) (h : 2 ≤ m) : Nat.log2 m = Nat.log2 (m / 2) + 1 := by
  rw [Nat.log2]
  simp [h]

theorem spacing_eq (fuel : Nat) : ∀ m : Nat, m < 2 ^ (53 + fuel) →
    spacing fuel m = 2 ^ (Nat.log2 m - 52) := by
  induction fuel with
  | zero =>
    intro m h
    rw [log2_small m (by simpa using h)]
    rfl
  | succ k ih =>
    intro m h
    unfold spacing
    by_cases hm : m < 2 ^ 53
    · rw [if_pos hm, log2_small m hm]; rfl
    · rw [if_neg hm]
      have h2 : 2 ≤ m := by
        have : (2 : Nat) ≤ 2 ^ 53 := by norm_num
        omega
      have hhalf : m / 2 < 2 ^ (53 + k) := by
        rw [Nat.div_lt_iff_lt_mul (by norm_num)]
        calc m < 2 ^ (53 + (k + 1)) := h
          _ = 2 ^ (53 + k) * 2 := by rw [← Nat.add_assoc, Nat.pow_succ]
      rw [ih (m / 2) hhalf, log2_half m h2]
      have hge : 52 ≤ Nat.log2 (m / 2) := by
        have hne : m / 2 ≠ 0 := by omega
        rw [Nat.le_log2 hne]
        have : 2 ^ 53 ≤ m := Nat.le_of_not_lt hm
        have h53 : (2 : Nat) ^ 53 = 2 ^ 52 * 2 := by norm_num
        rw [Nat.le_div_iff_mul_le (by norm_num)]
        omega
      have : Nat.log2 (m / 2) + 1 - 52 = (Nat.log2 (m / 2) - 52) + 1 := by omega
      rw [this, Nat.pow_succ, Nat.mul_comm]

theorem ulp_eq (m : Nat) : ulp m = 2 ^ (Nat.log2 m - 52) := by
  unfold ulp
  apply spacing_eq
  calc m < 2 ^ m := Nat.lt_two_pow m
    _ ≤ 2 ^ (53 + m) := Nat.pow_le_pow_right (by norm_num) (by omega)

theorem ulp_pos (m : Nat) : 0 < ulp m := by
  rw [ulp_eq]; exact pow_pos (by norm_num) _

theorem ulp_small (m : Nat) (h : m < 2 ^ 53) : ulp m = 1 := by
  rw [ulp_eq, log2_small m h]; rfl

theorem log2_mono {a b : Nat} (h : a ≤ b) : Nat.log2 a ≤ Nat.log2 b := by
  by_cases ha : a = 0
  · subst ha
    have : Nat.log2 0 = 0 := by rw [Nat.log2]; simp
    omega
  · have hb : b ≠ 0 := by omega
    rw [Nat.le_log2 hb]
    exact le_trans (Nat.log2_self_le ha) h

theorem ulp_dvd_ulp {a b : Nat} (h : a ≤ b) : ulp a ∣ ulp b := by
  rw [ulp_eq, ulp_eq]
  exact Nat.pow_dvd_pow 2 (Nat.sub_le_sub_right (log2_mono h) 52)


theorem roundNat_of_dvd (m : Nat) (h : ulp m ∣ m) : roundNat m = m := by
  unfold roundNat
  have hr : m % ulp m = 0 := Nat.mod_eq_zero_of_dvd h
  have hu := ulp_pos m
  simp only [hr, Nat.mul_zero, hu, true_or, if_true]
  exact Nat.div_mul_cancel h

theorem roundNat_cases (m : Nat) :
    roundNat m = m / ulp m * ulp m ∨ roundNat m = (m / ulp m + 1) * ulp m := by
  unfold roundNat
  simp only []
  split
  · exact Or.inl rfl
  · exact Or.inr rfl

theorem ulp_dvd_roundNat (m : Nat) : ulp m ∣ roundNat m := by
  rcases roundNat_cases m with h | h <;> rw [h] <;> exact Nat.dvd_mul_left _ _

theorem roundNat_le_up (m : Nat) : roundNat m ≤ (m / ulp m + 1) * ulp m := by
  rcases roundNat_cases m with h | h <;> rw [h]
  exact Nat.mul_le_mul_right _ (Nat.le_succ _)

theorem roundNat_small (m : Nat) (h : m ≤ 2 ^ 53) : roundNat m = m := by
  rcases Nat.lt_or_eq_of_le h with hlt | heq
  · apply roundNat_of_dvd
    rw [ulp_small m hlt]
    exact Nat.one_dvd m
  · subst heq
    decide

theorem div_ulp_lt (m : Nat) : m / ulp m < 2 ^ 53 := by
  rw [Nat.div_lt_iff_lt_mul (ulp_pos m), ulp_eq, ← Nat.pow_add]
  calc m < 2 ^ (Nat.log2 m + 1) := Nat.lt_log2_self
    _ ≤ 2 ^ (53 + (Nat.log2 m - 52)) := Nat.pow_le_pow_right (by norm_num) (by omega)

theorem ulp_dvd_of_form (c k : Nat) (hc : c ≤ 2 ^ 53) : ulp (c * 2 ^ k) ∣ c * 2 ^ k := by
  by_cases hy0 : c * 2 ^ k = 0
  · rw [hy0]; exact Nat.dvd_zero _
  rw [ulp_eq]
  rcases Nat.lt_or_eq_of_le hc with hlt | heq
  · have hlt2 : c * 2 ^ k < 2 ^ (53 + k) := by
      rw [Nat.pow_add]
      exact Nat.mul_lt_mul_of_pos_right hlt (pow_pos (by norm_num) _)
    have hl := (Nat.log2_lt hy0).2 hlt2
    exact Dvd.dvd.mul_left (Nat.pow_dvd_pow 2 (by omega)) c
  · subst heq
    rw [← Nat.pow_add, Nat.log2_two_pow]
    exact Nat.pow_dvd_pow 2 (by omega)

theorem roundNat_idem (m : Nat) : roundNat (roundNat m) = roundNat m := by
  apply roundNat_of_dvd
  have hq := div_ulp_lt m
  have hu := ulp_eq m
  rcases roundNat_cases m with h | h <;> rw [h]
  · rw [hu] at hq ⊢
    exact ulp_dvd_of_form _ _ (le_of_lt hq)
  · rw [hu] at hq ⊢
    exact ulp_dvd_of_form _ _ hq

theorem dvd_of_roundNat_eq (n : Nat) (h : roundNat n = n) : ulp n ∣ n := by
  have := ulp_dvd_roundNat n
  rwa [h] at this

theorem roundNat_pred_le (n : Nat) (h : roundNat n = n) (hn : 1 ≤ n) :
    roundNat (n - 1) ≤ n := by
  have hdvd : ulp (n - 1) ∣ n :=
    Dvd.dvd.trans (ulp_dvd_ulp (Nat.sub_le n 1)) (dvd_of_roundNat_eq n h)
  have hu := ulp_pos (n - 1)
  refine le_trans (roundNat_le_up (n - 1)) ?_
  generalize ulp (n - 1) = u at hdvd hu ⊢
  obtain ⟨c, hc⟩ := hdvd
  have hlt : (n - 1) / u < c := by
    rw [Nat.div_lt_iff_lt_mul hu, Nat.mul_comm, ← hc]
    omega
  calc ((n - 1) / u + 1) * u ≤ c * u := Nat.mul_le_mul_right _ hlt
    _ = n := by rw [hc, Nat.mul_comm]


theorem toDouble_of_nonneg (n : Int) (h : 0 ≤ n) :
    toDouble n = if doubleLimit ≤ roundNat n.natAbs then JSNum.posInf
      else JSNum.num (roundNat n.natAbs : Nat) := by
  unfold toDouble
  have hn : ¬ n < 0 := by omega
  simp only [hn, if_false]

theorem toDouble_safe (n : Int) (h : n.natAbs ≤ 2 ^ 53) : toDouble n = JSNum.num n := by
  unfold toDouble
  have hr := roundNat_small n.natAbs h
  have hlim : (2 : Nat) ^ 53 < doubleLimit := by decide
  have hlt : ¬ (doubleLimit ≤ roundNat n.natAbs) := by
    rw [hr]
    exact Nat.not_le.2 (lt_of_le_of_lt h hlim)
  rw [if_neg hlt, hr]
  congr 1
  by_cases hn : n < 0
  · rw [if_pos hn]; omega
  · rw [if_neg hn]; omega

theorem toDouble_idem (v n : Int) (h : toDouble v = JSNum.num n) :
    toDouble n = JSNum.num n := by
  unfold toDouble at h
  by_cases hlim : doubleLimit ≤ roundNat v.natAbs
  · rw [if_pos hlim] at h
    by_cases hv : v < 0
    · rw [if_pos hv] at h; exact absurd h (by simp)
    · rw [if_neg hv] at h; exact absurd h (by simp)
  · rw [if_neg hlim] at h
    injection h with h
    have habs : n.natAbs = roundNat v.natAbs := by
      by_cases hv : v < 0
      · rw [if_pos hv] at h; omega
      · rw [if_neg hv] at h; omega
    unfold toDouble
    rw [habs, roundNat_idem, if_neg hlim]
    congr 1
    by_cases hv : v < 0
    · rw [if_pos hv] at h
      by_cases hn : n < 0
      · rw [if_pos hn]; omega
      · rw [if_neg hn]; omega
    · rw [if_neg hv] at h
      by_cases hn : n < 0
      · rw [if_pos hn]; omega
      · rw [if_neg hn]; omega

theorem toDouble_nonneg (n : Int) (h : 0 ≤ n) :
    toDouble n = JSNum.posInf ∨
      ∃ k : Int, toDouble n = JSNum.num k ∧ 0 ≤ k ∧ toDouble k = JSNum.num k := by
  have h0 := toDouble_of_nonneg n h
  by_cases hlim : doubleLimit ≤ roundNat n.natAbs
  · rw [if_pos hlim] at h0
    exact Or.inl h0
  · rw [if_neg hlim] at h0
    exact Or.inr ⟨(roundNat n.natAbs : Nat), h0, Int.ofNat_nonneg _, toDouble_idem n _ h0⟩

theorem toDouble_pred (n : Int) (hrep : toDouble n = JSNum.num n) (hpos : 0 < n) :
    ∃ k : Int, toDouble (n - 1) = JSNum.num k ∧ 0 ≤ k ∧ k ≤ n ∧
      toDouble k = JSNum.num k := by
  have hn := toDouble_of_nonneg n (le_of_lt hpos)
  rw [hrep] at hn
  by_cases hfin : doubleLimit ≤ roundNat n.natAbs
  · rw [if_pos hfin] at hn
    exact absurd hn (by simp)
  rw [if_neg hfin] at hn
  injection hn with hn
  have hrn : roundNat n.natAbs = n.natAbs := by omega
  have hle := roundNat_pred_le n.natAbs hrn (by omega)
  have habs : (n - 1).natAbs = n.natAbs - 1 := by omega
  have hfin2 : ¬ (doubleLimit ≤ roundNat (n - 1).natAbs) := by
    rw [habs]; omega
  have h1 := toDouble_of_nonneg (n - 1) (by omega)
  rw [if_neg hfin2] at h1
  refine ⟨(roundNat (n - 1).natAbs : Nat), h1, Int.ofNat_nonneg _, ?_, toDouble_idem _ _ h1⟩
  rw [habs]
  omega

end Lumi

namespace Lumi

/-! ## Countdown and interval completion -/

namespace Desktop

theorem tick_pos (s : TimerState) (r : Int) (h : s.currentTime = JSNum.num r) (hr : 0 < r) :
    tick s = { s with currentTime := toDouble (r - 1) } := by
  simp [tick, h, JSNum.gtZero, JSNum.dec, hr]

theorem tick_safe (s : TimerState) (r : Int) (h : s.currentTime = JSNum.num r) (hr : 0 < r)
    (hsafe : r ≤ 2 ^ 53) : tick s = { s with currentTime := JSNum.num (r - 1) } := by
  rw [tick_pos s r h hr, toDouble_safe (r - 1) (by omega)]

theorem tick_zero (s : TimerState) (h : s.currentTime = JSNum.num 0) :
    tick s = timeUp s := by
  simp [tick, h, JSNum.gtZero]

theorem ticks_countdown (n : Nat) : ∀ (s : TimerState) (r : Int),
    s.currentTime = JSNum.num r → (n : Int) ≤ r → r ≤ 2 ^ 53 →
    ticks n s = { s with currentTime := JSNum.num (r - n) } := by
  induction n with
  | zero =>
    intro s r h _ _
    simp [ticks, ← h]
  | succ k ih =>
    intro s r h hr hsafe
    have hpos : 0 < r := by push_cast at hr; omega
    rw [ticks, tick_safe s r h hpos hsafe,
      ih _ (r - 1) rfl (by push_cast at hr; omega) (by omega)]
    simp
    ring

theorem ticks_succ (n : Nat) (s : TimerState) : ticks (n + 1) s = tick (ticks n s) := by
  induction n generalizing s with
  | zero => rfl
  | succ k ih => rw [ticks, ih (tick s)]; rfl

theorem start_fields (s : TimerState) :
    (start s).focusDuration = s.focusDuration ∧ (start s).breakDuration = s.breakDuration ∧
    (start s).currentTime = s.currentTime ∧ (start s).totalTime = s.totalTime ∧
    (start s).mode = s.mode ∧ (start s).isRunning = true ∧
    (start s).autoStartBreak = s.autoStartBreak ∧ (start s).autoStartFocus = s.autoStartFocus ∧
    (start s).timeouts = s.timeouts := by
  unfold start
  cases h : s.isRunning <;> simp [h]

theorem timeUp_fields (s : TimerState) :
    (timeUp s).mode = s.mode.flip ∧
    (timeUp s).currentTime = durationOf s s.mode.flip ∧
    (timeUp s).totalTime = durationOf s s.mode.flip ∧
    (timeUp s).isRunning = false ∧
    (timeUp s).intervals = (pause s).intervals ∧
    (timeUp s).focusDuration = s.focusDuration ∧
    (timeUp s).breakDuration = s.breakDuration := by
  unfold timeUp pause scheduleStart
  cases hm : s.mode <;> cases hr : s.isRunning <;> cases ha : s.autoStartBreak <;>
    cases hf : s.autoStartFocus <;> simp [hm, hr, ha, hf, Mode.flip, durationOf]

end Desktop

namespace Terminal

theorem terminal_tick_pos (s : TimerState) (r : Int) (h : s.currentTime = JSNum.num r)
    (hr : 0 < r) (hsafe : r ≤ 2 ^ 53) :
    tick s = { s with currentTime := JSNum.num (r - 1) } := by
  simp [tick, h, JSNum.gtZero, JSNum.dec, hr, toDouble_safe (r - 1) (by omega)]

theorem terminal_ticks_countdown (n : Nat) : ∀ (s : TimerState) (r : Int),
    s.currentTime = JSNum.num r → (n : Int) ≤ r → r ≤ 2 ^ 53 →
    ticks n s = { s with currentTime := JSNum.num (r - n) } := by
  induction n with
  | zero =>
    intro s r h _ _
    simp [ticks, ← h]
  | succ k ih =>
    intro s r h hr hsafe
    have hpos : 0 < r := by push_cast at hr; omega
    rw [ticks, terminal_tick_pos s r h hpos hsafe,
      ih _ (r - 1) rfl (by push_cast at hr; omega) (by omega)]
    simp
    ring

end Terminal

/-- C1, as the spec states it, fails: from the default state, `start()` and
exactly 1500 calls of `tick()` leave the timer in focus mode at zero, still
running; the mode has not flipped yet. -/
theorem c1_scenario_1500_ticks_refuted :
    ¬ ((Desktop.ticks 1500 (Desktop.start Desktop.initial)).mode = Mode.brk ∧
       (Desktop.ticks 1500 (Desktop.start Desktop.initial)).currentTime = JSNum.num 300 ∧
       (Desktop.ticks 1500 (Desktop.start Desktop.initial)).totalTime = JSNum.num 300 ∧
       (Desktop.ticks 1500 (Desktop.start Desktop.initial)).isRunning = false) := by
  rw [Desktop.ticks_countdown 1500 (Desktop.start Desktop.initial) 1500 rfl (by norm_num)
    (by norm_num)]
  intro h
  exact absurd h.1 (by decide)

/-- C1, amended: from focusDuration=1500, breakDuration=300, mode=focus,
currentTime=totalTime=1500, `start()` followed by exactly 1500 calls of
`tick()` reaches mode=focus, currentTime=0, isRunning=true, and the next call,
the 1501st, reaches mode=break, currentTime=300, totalTime=300,
isRunning=false. -/
theorem c1_scenario_1501_ticks (s : Desktop.TimerState)
    (_hf : s.focusDuration = JSNum.num 1500) (hb : s.breakDuration = JSNum.num 300)
    (hm : s.mode = Mode.focus) (hc : s.currentTime = JSNum.num 1500)
    (ht : s.totalTime = JSNum.num 1500) :
    ((Desktop.ticks 1500 (Desktop.start s)).mode = Mode.focus ∧
     (Desktop.ticks 1500 (Desktop.start s)).currentTime = JSNum.num 0 ∧
     (Desktop.ticks 1500 (Desktop.start s)).totalTime = JSNum.num 1500 ∧
     (Desktop.ticks 1500 (Desktop.start s)).isRunning = true) ∧
    ((Desktop.ticks 1501 (Desktop.start s)).mode = Mode.brk ∧
     (Desktop.ticks 1501 (Desktop.start s)).currentTime = JSNum.num 300 ∧
     (Desktop.ticks 1501 (Desktop.start s)).totalTime = JSNum.num 300 ∧
     (Desktop.ticks 1501 (Desktop.start s)).isRunning = false) := by
  obtain ⟨sf, sb, sc, st, sm, sr, -, -, -⟩ := Desktop.start_fields s
  have h1500 := Desktop.ticks_countdown 1500 (Desktop.start s) 1500 (sc.trans hc) (by norm_num)
    (by norm_num)
  have hlast : Desktop.ticks 1501 (Desktop.start s) =
      Desktop.tick (Desktop.ticks 1500 (Desktop.start s)) := Desktop.ticks_succ 1500 _
  rw [hlast, h1500]
  refine ⟨⟨sm.trans hm, by simp, st.trans ht, sr⟩, ?_⟩
  rw [Desktop.tick_zero _ (by simp)]
  obtain ⟨tm, tc, tt, tr, -, -, -⟩ :=
    Desktop.timeUp_fields { Desktop.start s with currentTime := JSNum.num (1500 - (1500 : Nat)) }
  rw [tm, tc, tt, tr]
  simp [sm, hm, Mode.flip, Desktop.durationOf, sb, hb]

/-- Witness for C1 amended: the default state of the desktop timer. -/
theorem c1_scenario_1501_ticks_witness :
    ((Desktop.ticks 1500 (Desktop.start Desktop.initial)).mode = Mode.focus ∧
     (Desktop.ticks 1500 (Desktop.start Desktop.initial)).currentTime = JSNum.num 0 ∧
     (Desktop.ticks 1500 (Desktop.start Desktop.initial)).totalTime = JSNum.num 1500 ∧
     (Desktop.ticks 1500 (Desktop.start Desktop.initial)).isRunning = true) ∧
    ((Desktop.ticks 1501 (Desktop.start Desktop.initial)).mode = Mode.brk ∧
     (Desktop.ticks 1501 (Desktop.start Desktop.initial)).currentTime = JSNum.num 300 ∧
     (Desktop.ticks 1501 (Desktop.start Desktop.initial)).totalTime = JSNum.num 300 ∧
     (Desktop.ticks 1501 (Desktop.start Desktop.initial)).isRunning = false) :=
  c1_scenario_1501_ticks Desktop.initial rfl rfl rfl rfl rfl

end Lumi

namespace Lumi

/-! ## Settings -/

theorem parseInt_minutes : ∀ v : Fin 121, parseInt (toString (v.val : Int)) = JSNum.num v.val := by
  decide

theorem parseInt_clamped (v : Int) (h1 : 1 ≤ v) (h2 : v ≤ 120) :
    parseInt (toString v) = JSNum.num v := by
  have h := parseInt_minutes ⟨v.toNat, by omega⟩
  have hv : ((v.toNat : Nat) : Int) = v := by omega
  simpa [hv] using h

namespace Desktop

theorem clamp_text (hi f : Int) (h1 : 1 ≤ hi) :
    (JSNum.mathMax (JSNum.num 1) (JSNum.mathMin (JSNum.num hi)
      (if (JSNum.num f).truthy = true then JSNum.num f else JSNum.num 1))).toText =
    toString (min hi (max 1 f)) := by
  by_cases hf : f = 0
  · subst hf
    simp only [JSNum.truthy, JSNum.mathMin, JSNum.mathMax, JSNum.toText, ne_eq,
      not_true_eq_false, decide_False, Bool.false_eq_true, if_false]
    congr 1
    omega
  · simp only [JSNum.truthy, JSNum.mathMin, JSNum.mathMax, JSNum.toText, ne_eq, hf,
      not_false_eq_true, decide_True, if_true]
    congr 1
    omega

theorem finishEdit_focus (text : String) (f : Int) (h : parseInt text = JSNum.num f) :
    finishEdit "focus" text = toString (min 120 (max 1 f)) := by
  unfold finishEdit
  simp only [h, if_true]
  exact clamp_text 120 f (by norm_num)

theorem finishEdit_break (text : String) (b : Int) (h : parseInt text = JSNum.num b) :
    finishEdit "break" text = toString (min 60 (max 1 b)) := by
  unfold finishEdit
  have : ¬ ("break" = "focus") := by decide
  simp only [h, this, if_false]
  exact clamp_text 60 b (by norm_num)

theorem saveSettings_durations (fi bi : String) (ab af : Bool) (s : TimerState) :
    (saveSettings fi bi ab af s).focusDuration = (parseInt fi).mul60 ∧
    (saveSettings fi bi ab af s).breakDuration = (parseInt bi).mul60 := by
  unfold saveSettings
  cases hr : s.isRunning <;> cases hm : s.mode <;> simp [hr, hm]

end Desktop

/-- C2, as the spec states it, fails: `saveSettings` given 0 focus minutes
stores a focus duration of 0 seconds, not 60, and given 500 stores 30000
seconds, not 7200. -/
theorem c2_saveSettings_not_clamped :
    (Desktop.saveSettings "0" "5" false false Desktop.initial).focusDuration = JSNum.num 0 ∧
    (Desktop.saveSettings "0" "5" false false Desktop.initial).focusDuration ≠
      JSNum.num (60 * min 120 (max 1 0)) ∧
    (Desktop.saveSettings "500" "5" false false Desktop.initial).focusDuration =
      JSNum.num 30000 ∧
    (Desktop.saveSettings "500" "5" false false Desktop.initial).focusDuration ≠
      JSNum.num (60 * min 120 (max 1 500)) := by
  decide

/-- C2, amended: the clamp is done by `finishEdit`, not by `saveSettings`.
For every integer focusMinutes and breakMinutes in the two input fields,
`finishEdit` on each field followed by `saveSettings` gives
focusDuration = 60 * min(120, max(1, focusMinutes)) and
breakDuration = 60 * min(60, max(1, breakMinutes)); `saveSettings` alone stores
60 times what `parseInt` reads in the fields, as the double nearest to that
product, which is the product itself as long as it is at most `2^53`. -/
theorem c2_finishEdit_then_saveSettings_clamps (focusText breakText : String)
    (focusMinutes breakMinutes : Int)
    (hf : parseInt focusText = JSNum.num focusMinutes)
    (hb : parseInt breakText = JSNum.num breakMinutes)
    (ab af : Bool) (s : Desktop.TimerState) :
    ((Desktop.saveSettings (Desktop.finishEdit "focus" focusText)
        (Desktop.finishEdit "break" breakText) ab af s).focusDuration =
      JSNum.num (60 * min 120 (max 1 focusMinutes)) ∧
     (Desktop.saveSettings (Desktop.finishEdit "focus" focusText)
        (Desktop.finishEdit "break" breakText) ab af s).breakDuration =
      JSNum.num (60 * min 60 (max 1 breakMinutes))) ∧
    ((Desktop.saveSettings focusText breakText ab af s).focusDuration =
      toDouble (focusMinutes * 60) ∧
     (Desktop.saveSettings focusText breakText ab af s).breakDuration =
      toDouble (breakMinutes * 60)) ∧
    (((focusMinutes * 60).natAbs ≤ 2 ^ 53 →
      (Desktop.saveSettings focusText breakText ab af s).focusDuration =
        JSNum.num (focusMinutes * 60)) ∧
     ((breakMinutes * 60).natAbs ≤ 2 ^ 53 →
      (Desktop.saveSettings focusText breakText ab af s).breakDuration =
        JSNum.num (breakMinutes * 60))) := by
  obtain ⟨h1, h2⟩ := Desktop.saveSettings_durations (Desktop.finishEdit "focus" focusText)
    (Desktop.finishEdit "break" breakText) ab af s
  obtain ⟨h3, h4⟩ := Desktop.saveSettings_durations focusText breakText ab af s
  rw [h1, h2, h3, h4, hf, hb, Desktop.finishEdit_focus focusText focusMinutes hf,
    Desktop.finishEdit_break breakText breakMinutes hb,
    parseInt_clamped (min 120 (max 1 focusMinutes)) (by omega) (by omega),
    parseInt_clamped (min 60 (max 1 breakMinutes)) (by omega) (by omega)]
  refine ⟨⟨?_, ?_⟩, ⟨rfl, rfl⟩, fun h => toDouble_safe _ h, fun h => toDouble_safe _ h⟩
  · show toDouble (min 120 (max 1 focusMinutes) * 60) = _
    rw [toDouble_safe _ (by omega), mul_comm]
  · show toDouble (min 60 (max 1 breakMinutes) * 60) = _
    rw [toDouble_safe _ (by omega), mul_comm]

/-- Witness for C2 amended: 0 and 500 typed as focus minutes, 5 and 90 as
break minutes. -/
theorem c2_finishEdit_then_saveSettings_clamps_witness :
    (((Desktop.saveSettings (Desktop.finishEdit "focus" "0")
        (Desktop.finishEdit "break" "90") false false Desktop.initial).focusDuration =
      JSNum.num (60 * min 120 (max 1 0)) ∧
     (Desktop.saveSettings (Desktop.finishEdit "focus" "0")
        (Desktop.finishEdit "break" "90") false false Desktop.initial).breakDuration =
      JSNum.num (60 * min 60 (max 1 90))) ∧
    ((Desktop.saveSettings "0" "90" false false Desktop.initial).focusDuration =
      JSNum.num (0 * 60) ∧
     (Desktop.saveSettings "0" "90" false false Desktop.initial).breakDuration =
      JSNum.num (90 * 60))) :=
  have h := c2_finishEdit_then_saveSettings_clamps "0" "90" 0 90 (by decide) (by decide)
    false false Desktop.initial
  ⟨h.1, h.2.2.1 (by decide), h.2.2.2 (by decide)⟩

end Lumi

namespace Lumi

/-! ## The invariant on the remaining time -/

theorem parseInt_rep (text : String) (n : Int) (h : parseInt text = JSNum.num n) :
    toDouble n = JSNum.num n := by
  unfold parseInt at h
  simp only [] at h
  split at h
  · exact absurd h (by simp)
  · exact toDouble_idem _ n h

namespace Desktop

theorem isCount_num (n : Int) (h0 : 0 ≤ n) (hsafe : n.natAbs ≤ 2 ^ 53) :
    IsCount (JSNum.num n) :=
  Or.inr ⟨n, rfl, h0, toDouble_safe n hsafe⟩

theorem isCount_toDouble (n : Int) (h0 : 0 ≤ n) : IsCount (toDouble n) := by
  rcases toDouble_nonneg n h0 with h | ⟨k, hk, h0k, hrep⟩
  · exact Or.inl h
  · exact Or.inr ⟨k, hk, h0k, hrep⟩

theorem isCount_parseInt (text : String) (h : nonNegText text = true) :
    IsCount (parseInt text) := by
  unfold nonNegText at h
  cases hp : parseInt text with
  | nan => rw [hp] at h; exact absurd h (by simp)
  | negInf => rw [hp] at h; exact absurd h (by simp)
  | posInf => exact Or.inl rfl
  | num n =>
    rw [hp] at h
    exact Or.inr ⟨n, rfl, by simpa using h, parseInt_rep text n hp⟩

theorem isCount_mul60 (x : JSNum) (h : IsCount x) : IsCount x.mul60 := by
  rcases h with h | ⟨n, h, h0, -⟩
  · rw [h]; exact Or.inl rfl
  · rw [h]
    exact isCount_toDouble (n * 60) (by omega)

theorem isCount_le_self (x : JSNum) (h : IsCount x) : JSNum.le x x := by
  rcases h with h | ⟨n, h, -, -⟩ <;> rw [h]
  · trivial
  · exact le_refl n

theorem isCount_zero_le (x : JSNum) (h : IsCount x) : JSNum.le (JSNum.num 0) x := by
  rcases h with h | ⟨n, h, h0, -⟩ <;> rw [h]
  · trivial
  · exact h0

theorem timeInv_of_fields {s s' : TimerState} (h : TimeInv s)
    (h1 : s'.focusDuration = s.focusDuration) (h2 : s'.breakDuration = s.breakDuration)
    (h3 : s'.currentTime = s.currentTime) (h4 : s'.totalTime = s.totalTime) : TimeInv s' := by
  unfold TimeInv at *
  rw [h1, h2, h3, h4]
  exact h

theorem timeInv_of_reset {s' : TimerState} (hf : IsCount s'.focusDuration)
    (hb : IsCount s'.breakDuration) (m : Mode)
    (hc : s'.currentTime = durationOf s' m) (ht : s'.totalTime = durationOf s' m) :
    TimeInv s' := by
  have hd : IsCount (durationOf s' m) := by cases m <;> assumption
  unfold TimeInv
  rw [hc, ht]
  exact ⟨hf, hb, hd, hd, isCount_le_self _ hd⟩

theorem pause_fields (s : TimerState) :
    (pause s).focusDuration = s.focusDuration ∧ (pause s).breakDuration = s.breakDuration ∧
    (pause s).currentTime = s.currentTime ∧ (pause s).totalTime = s.totalTime ∧
    (pause s).mode = s.mode ∧ (pause s).isRunning = false ∧
    (pause s).timeouts = s.timeouts := by
  unfold pause
  cases h : s.isRunning <;> simp [h]

theorem skipMode_fields (s : TimerState) :
    (skipMode s).mode = s.mode.flip ∧
    (skipMode s).currentTime = durationOf s s.mode.flip ∧
    (skipMode s).totalTime = durationOf s s.mode.flip ∧
    (skipMode s).isRunning = false ∧
    (skipMode s).intervals = (pause s).intervals ∧
    (skipMode s).focusDuration = s.focusDuration ∧
    (skipMode s).breakDuration = s.breakDuration ∧
    (skipMode s).timeouts = s.timeouts := by
  unfold skipMode pause
  cases hm : s.mode <;> cases hr : s.isRunning <;> simp [hm, hr, Mode.flip, durationOf]

theorem timeInv_start {s : TimerState} (h : TimeInv s) : TimeInv (start s) := by
  obtain ⟨h1, h2, h3, h4, -⟩ := start_fields s
  exact timeInv_of_fields h h1 h2 h3 h4

theorem timeInv_pause {s : TimerState} (h : TimeInv s) : TimeInv (pause s) := by
  obtain ⟨h1, h2, h3, h4, -⟩ := pause_fields s
  exact timeInv_of_fields h h1 h2 h3 h4

theorem timeInv_timeUp {s : TimerState} (h : TimeInv s) : TimeInv (timeUp s) := by
  obtain ⟨hf, hb, -, -, -⟩ := h
  obtain ⟨-, tc, tt, -, -, tf, tb⟩ := timeUp_fields s
  refine timeInv_of_reset (by rw [tf]; exact hf) (by rw [tb]; exact hb) s.mode.flip ?_ ?_
  · rw [tc]; cases s.mode.flip <;> simp [durationOf, tf, tb]
  · rw [tt]; cases s.mode.flip <;> simp [durationOf, tf, tb]

theorem timeInv_skipMode {s : TimerState} (h : TimeInv s) : TimeInv (skipMode s) := by
  obtain ⟨hf, hb, -, -, -⟩ := h
  obtain ⟨-, tc, tt, -, -, tf, tb, -⟩ := skipMode_fields s
  refine timeInv_of_reset (by rw [tf]; exact hf) (by rw [tb]; exact hb) s.mode.flip ?_ ?_
  · rw [tc]; cases s.mode.flip <;> simp [durationOf, tf, tb]
  · rw [tt]; cases s.mode.flip <;> simp [durationOf, tf, tb]

theorem timeInv_tick {s : TimerState} (h : TimeInv s) : TimeInv (tick s) := by
  have hall := h
  obtain ⟨hf, hb, hc, ht, hle⟩ := h
  rcases hc with hc | ⟨n, hc, h0, hrep⟩
  · have htick : tick s = { s with currentTime := JSNum.posInf } := by
      simp [tick, hc, JSNum.gtZero, JSNum.dec]
    rw [htick]
    exact timeInv_of_fields hall rfl rfl hc.symm rfl
  · by_cases hpos : 0 < n
    · rw [tick_pos s n hc hpos]
      obtain ⟨k, hk, h0k, hkn, hkrep⟩ := toDouble_pred n hrep hpos
      rw [hk]
      refine ⟨hf, hb, Or.inr ⟨k, rfl, h0k, hkrep⟩, ht, ?_⟩
      show JSNum.le (JSNum.num k) s.totalTime
      rw [hc] at hle
      rcases ht with ht | ⟨t, ht, -, -⟩
      · rw [ht]; trivial
      · rw [ht] at hle ⊢
        exact le_trans hkn hle
    · have hz : n = 0 := by omega
      subst hz
      rw [tick_zero s hc]
      exact timeInv_timeUp hall

theorem timeInv_toggleTimer {s : TimerState} (h : TimeInv s) : TimeInv (toggleTimer s) := by
  unfold Desktop.toggleTimer
  split
  · exact timeInv_pause h
  · exact timeInv_start h

theorem timeInv_fireTimeout {s : TimerState} (h : TimeInv s) (id : Nat) :
    TimeInv (fireTimeout id s) := by
  unfold Desktop.fireTimeout
  split
  · exact timeInv_start (timeInv_of_fields h rfl rfl rfl rfl)
  · exact h

theorem timeInv_saveSettings {s : TimerState} (h : TimeInv s) (fi bi : String) (ab af : Bool)
    (hfi : nonNegText fi = true) (hbi : nonNegText bi = true) :
    TimeInv (saveSettings fi bi ab af s) := by
  obtain ⟨-, -, hc, ht, hle⟩ := h
  have hf := isCount_mul60 _ (isCount_parseInt fi hfi)
  have hb := isCount_mul60 _ (isCount_parseInt bi hbi)
  unfold Desktop.saveSettings
  cases hr : s.isRunning <;> cases hmode : s.mode <;>
    simp only [hr, hmode, Bool.not_false, Bool.not_true, if_true, Bool.false_eq_true,
      if_false]
  · exact timeInv_of_reset hf hb Mode.focus rfl rfl
  · exact timeInv_of_reset hf hb Mode.brk rfl rfl
  · exact ⟨hf, hb, hc, ht, hle⟩
  · exact ⟨hf, hb, hc, ht, hle⟩

theorem timeInv_step {s : TimerState} (h : TimeInv s) (a : Action) (ha : a.inputsOk = true) :
    TimeInv (step s a) := by
  cases a with
  | tick => exact timeInv_tick h
  | start => exact timeInv_start h
  | pause => exact timeInv_pause h
  | toggleTimer => exact timeInv_toggleTimer h
  | skipMode => exact timeInv_skipMode h
  | saveSettings fi bi ab af =>
    simp only [Action.inputsOk, Bool.and_eq_true] at ha
    exact timeInv_saveSettings h fi bi ab af ha.1 ha.2
  | fireTimeout id => exact timeInv_fireTimeout h id

theorem timeInv_run (actions : List Action) : ∀ {s : TimerState}, TimeInv s →
    (∀ a ∈ actions, a.inputsOk = true) → TimeInv (run s actions) := by
  induction actions with
  | nil => intro s h _; exact h
  | cons a rest ih =>
    intro s h hall
    have h1 := timeInv_step h a (hall a (List.mem_cons_self _ _))
    exact ih h1 (fun x hx => hall x (List.mem_cons_of_mem _ hx))

theorem timeInv_loadSettings (sf sb saf sab : Option String)
    (hsf : storedOk sf = true) (hsb : storedOk sb = true) :
    TimeInv (loadSettings sf sb saf sab initial) := by
  have key : ∀ v : Option String, storedOk v = true → ∀ d : Int, 0 ≤ d → d.natAbs ≤ 2 ^ 53 →
      IsCount (if truthyStored v = true then parseInt (v.getD "") else JSNum.num d) := by
    intro v hv d hd hsafe
    cases ht : truthyStored v with
    | false => exact isCount_num d hd hsafe
    | true =>
      simp only [storedOk, ht, Bool.not_true, Bool.false_or] at hv
      exact isCount_parseInt _ hv
  have hf := key sf hsf 1500 (by norm_num) (by norm_num)
  have hb := key sb hsb 300 (by norm_num) (by norm_num)
  have hfields :
      (loadSettings sf sb saf sab initial).focusDuration =
        (if truthyStored sf = true then parseInt (sf.getD "") else JSNum.num 1500) ∧
      (loadSettings sf sb saf sab initial).breakDuration =
        (if truthyStored sb = true then parseInt (sb.getD "") else JSNum.num 300) ∧
      (loadSettings sf sb saf sab initial).currentTime =
        (loadSettings sf sb saf sab initial).focusDuration ∧
      (loadSettings sf sb saf sab initial).totalTime =
        (loadSettings sf sb saf sab initial).focusDuration := by
    unfold Desktop.loadSettings
    cases htf : truthyStored sf <;> cases htb : truthyStored sb <;> cases saf <;> cases sab <;>
      simp [htf, htb, initial]
  obtain ⟨e1, e2, e3, e4⟩ := hfields
  exact timeInv_of_reset (by rw [e1]; exact hf) (by rw [e2]; exact hb) Mode.focus e3 e4

end Desktop

end Lumi

namespace Lumi

/-- C3, as the spec states it, fails: a negative minute input to
`saveSettings`, a negative stored duration and a non-numeric stored duration
each lead to a state whose remaining time is not at least zero. -/
theorem c3_invariant_fails_on_bad_input :
    ¬ JSNum.le (JSNum.num 0)
        (Desktop.run (Desktop.loadSettings none none none none Desktop.initial)
          [Desktop.Action.saveSettings "-1" "5" false false]).currentTime ∧
    ¬ JSNum.le (JSNum.num 0)
        (Desktop.run (Desktop.loadSettings (some "-60") none none none Desktop.initial)
          []).currentTime ∧
    ¬ JSNum.le (JSNum.num 0)
        (Desktop.run (Desktop.loadSettings (some "abc") none none none Desktop.initial)
          []).currentTime := by
  decide

/-- C3, amended: when each persisted duration is absent, empty or a
non-negative integer and every `saveSettings` of the sequence reads
non-negative integer minutes, every state reached from the loaded initial
state by tick, start, pause, toggleTimer, skipMode, saveSettings and firings
of scheduled starts has 0 <= currentTime <= totalTime. -/
theorem c3_time_invariant (savedFocus savedBreak savedAutoFocus savedAutoBreak : Option String)
    (actions : List Desktop.Action)
    (hFocus : Desktop.storedOk savedFocus = true) (hBreak : Desktop.storedOk savedBreak = true)
    (hInputs : ∀ a ∈ actions, a.inputsOk = true) :
    JSNum.le (JSNum.num 0)
      (Desktop.run (Desktop.loadSettings savedFocus savedBreak savedAutoFocus savedAutoBreak
        Desktop.initial) actions).currentTime ∧
    JSNum.le
      (Desktop.run (Desktop.loadSettings savedFocus savedBreak savedAutoFocus savedAutoBreak
        Desktop.initial) actions).currentTime
      (Desktop.run (Desktop.loadSettings savedFocus savedBreak savedAutoFocus savedAutoBreak
        Desktop.initial) actions).totalTime := by
  obtain ⟨-, -, hc, -, hct⟩ :=
    Desktop.timeInv_run actions
      (Desktop.timeInv_loadSettings savedFocus savedBreak savedAutoFocus savedAutoBreak
        hFocus hBreak) hInputs
  exact ⟨Desktop.isCount_zero_le _ hc, hct⟩

/-- Witness for C3 amended: two minutes stored, then start, two ticks, a save
of 3 and 1 minutes, a skip and a toggle. -/
theorem c3_time_invariant_witness :
    JSNum.le (JSNum.num 0)
      (Desktop.run (Desktop.loadSettings (some "120") none (some "true") none
        Desktop.initial)
        [Desktop.Action.start, Desktop.Action.tick, Desktop.Action.tick,
         Desktop.Action.saveSettings "3" "1" true false, Desktop.Action.skipMode,
         Desktop.Action.toggleTimer]).currentTime ∧
    JSNum.le
      (Desktop.run (Desktop.loadSettings (some "120") none (some "true") none
        Desktop.initial)
        [Desktop.Action.start, Desktop.Action.tick, Desktop.Action.tick,
         Desktop.Action.saveSettings "3" "1" true false, Desktop.Action.skipMode,
         Desktop.Action.toggleTimer]).currentTime
      (Desktop.run (Desktop.loadSettings (some "120") none (some "true") none
        Desktop.initial)
        [Desktop.Action.start, Desktop.Action.tick, Desktop.Action.tick,
         Desktop.Action.saveSettings "3" "1" true false, Desktop.Action.skipMode,
         Desktop.Action.toggleTimer]).totalTime :=
  c3_time_invariant (some "120") none (some "true") none
    [Desktop.Action.start, Desktop.Action.tick, Desktop.Action.tick,
     Desktop.Action.saveSettings "3" "1" true false, Desktop.Action.skipMode,
     Desktop.Action.toggleTimer] (by decide) (by decide) (by decide)

/-- C4, as the spec states it, fails: a stored focus duration of
18014398509482040 seconds (above `2^53`) is loaded as it is, and on the started
timer one call of `tick()` leaves `currentTime` at 18014398509482040, because
the double nearest to 18014398509482039 is 18014398509482040 again; the claim
asks for 18014398509482039. -/
theorem c4_countdown_stalls_above_2_53 :
    (Desktop.start (Desktop.loadSettings (some "18014398509482040") none none none
      Desktop.initial)).isRunning = true ∧
    (Desktop.start (Desktop.loadSettings (some "18014398509482040") none none none
      Desktop.initial)).currentTime = JSNum.num 18014398509482040 ∧
    (Desktop.ticks 1 (Desktop.start (Desktop.loadSettings (some "18014398509482040") none
      none none Desktop.initial))).currentTime = JSNum.num 18014398509482040 ∧
    (Desktop.ticks 1 (Desktop.start (Desktop.loadSettings (some "18014398509482040") none
      none none Desktop.initial))).currentTime ≠ JSNum.num (18014398509482040 - (1 : Nat)) := by
  decide

/-- C4, amended: while `currentTime = r` with `r` at most `2^53` and `n < r`,
`n` consecutive calls of `tick()` leave `currentTime = r - n` and change no
other variable (mode, totalTime, isRunning, the durations, the registered
interval), in the desktop and in the terminal variant. -/
theorem c4_countdown (n : Nat) (r : Int) (hn : (n : Int) < r) (hsafe : r ≤ 2 ^ 53) :
    (∀ s : Desktop.TimerState, s.isRunning = true → s.currentTime = JSNum.num r →
      Desktop.ticks n s = { s with currentTime := JSNum.num (r - n) }) ∧
    (∀ s : Terminal.TimerState, s.isRunning = true → s.currentTime = JSNum.num r →
      Terminal.ticks n s = { s with currentTime := JSNum.num (r - n) }) :=
  ⟨fun s _ hc => Desktop.ticks_countdown n s r hc (le_of_lt hn) hsafe,
   fun s _ hc => Terminal.terminal_ticks_countdown n s r hc (le_of_lt hn) hsafe⟩

/-- Witness for C4 amended: three ticks of the started default timers. -/
theorem c4_countdown_witness :
    Desktop.ticks 3 (Desktop.start Desktop.initial) =
      { Desktop.start Desktop.initial with currentTime := JSNum.num (1500 - (3 : Nat)) } ∧
    Terminal.ticks 3 (Terminal.start Terminal.initial) =
      { Terminal.start Terminal.initial with currentTime := JSNum.num (1500 - (3 : Nat)) } :=
  ⟨(c4_countdown 3 1500 (by decide) (by decide)).1 (Desktop.start Desktop.initial) rfl rfl,
   (c4_countdown 3 1500 (by decide) (by decide)).2 (Terminal.start Terminal.initial) rfl rfl⟩

/-- C5: for every running desktop timer with `currentTime = 0`, one call of
`tick()` flips the mode, sets `currentTime` and `totalTime` to the duration
configured for the new mode, leaves `isRunning = false`, and clears the
interval held in `interval`: no tick source is left when that interval was the
registered one. -/
theorem c5_interval_completion (s : Desktop.TimerState) (hr : s.isRunning = true)
    (hc : s.currentTime = JSNum.num 0) :
    (Desktop.tick s).mode = s.mode.flip ∧
    (Desktop.tick s).currentTime = Desktop.durationOf s s.mode.flip ∧
    (Desktop.tick s).totalTime = Desktop.durationOf s s.mode.flip ∧
    (Desktop.tick s).isRunning = false ∧
    (Desktop.tick s).intervals = clearTimer s.interval s.intervals ∧
    (Desktop.TickSourceInv s → (Desktop.tick s).intervals = []) := by
  rw [Desktop.tick_zero s hc]
  obtain ⟨tm, tc, tt, tr, ti, -, -⟩ := Desktop.timeUp_fields s
  have hp : (Desktop.pause s).intervals = clearTimer s.interval s.intervals := by
    simp [Desktop.pause, hr]
  refine ⟨tm, tc, tt, tr, ti.trans hp, ?_⟩
  intro hinv
  rw [ti, hp]
  unfold Desktop.TickSourceInv at hinv
  rw [if_pos hr] at hinv
  obtain ⟨hsome, hlist⟩ := hinv
  obtain ⟨id, hid⟩ := Option.isSome_iff_exists.1 hsome
  rw [hlist, hid]
  simp [clearTimer]

/-- Witness for C5: the default timer with one second of focus, started and
ticked down to zero. -/
theorem c5_interval_completion_witness :
    (Desktop.tick (Desktop.tick (Desktop.start
      { Desktop.initial with currentTime := JSNum.num 1 }))).mode = Mode.brk ∧
    (Desktop.tick (Desktop.tick (Desktop.start
      { Desktop.initial with currentTime := JSNum.num 1 }))).currentTime = JSNum.num 300 ∧
    (Desktop.tick (Desktop.tick (Desktop.start
      { Desktop.initial with currentTime := JSNum.num 1 }))).isRunning = false ∧
    (Desktop.tick (Desktop.tick (Desktop.start
      { Desktop.initial with currentTime := JSNum.num 1 }))).intervals = [] :=
  have h := c5_interval_completion
    (Desktop.tick (Desktop.start { Desktop.initial with currentTime := JSNum.num 1 }))
    (by decide) (by decide)
  ⟨h.1, h.2.1, h.2.2.2.1, h.2.2.2.2.2 (by decide)⟩

end Lumi

namespace Lumi

/-! ## Auto-continue and the tick source -/

namespace Desktop

theorem timeUp_timeouts (s : TimerState) :
    (timeUp s).timeouts =
      if (s.mode = Mode.focus ∧ s.autoStartBreak = true) ∨
         (s.mode = Mode.brk ∧ s.autoStartFocus = true)
      then s.timeouts ++ [⟨s.nextId, 1000⟩] else s.timeouts := by
  unfold timeUp pause scheduleStart
  cases hm : s.mode <;> cases hr : s.isRunning <;> cases ha : s.autoStartBreak <;>
    cases hf : s.autoStartFocus <;> simp [hm, hr, ha, hf]

theorem fireTimeout_pending (id : Nat) (s : TimerState) (h : ∃ t ∈ s.timeouts, t.id = id) :
    fireTimeout id s = start { s with timeouts := clearTimer (some id) s.timeouts } := by
  unfold fireTimeout
  rw [if_pos]
  simpa using h

theorem tickSource_start {s : TimerState} (h : TickSourceInv s) : TickSourceInv (start s) := by
  unfold TickSourceInv Desktop.start at *
  cases hr : s.isRunning <;> simp_all

theorem tickSource_pause {s : TimerState} (h : TickSourceInv s) : TickSourceInv (pause s) := by
  unfold TickSourceInv Desktop.pause at *
  cases hr : s.isRunning
  · simp_all
  · simp only [hr, if_true] at h ⊢
    obtain ⟨hsome, hlist⟩ := h
    obtain ⟨id, hid⟩ := Option.isSome_iff_exists.1 hsome
    simp [hlist, hid, clearTimer]

theorem tickSource_of_fields {s s' : TimerState} (h : TickSourceInv s)
    (h1 : s'.isRunning = s.isRunning) (h2 : s'.interval = s.interval)
    (h3 : s'.intervals = s.intervals) : TickSourceInv s' := by
  unfold TickSourceInv at *
  rw [h1, h2, h3]
  exact h

theorem tickSource_timeUp {s : TimerState} (h : TickSourceInv s) :
    TickSourceInv (timeUp s) := by
  have hp := tickSource_pause h
  unfold Desktop.timeUp scheduleStart
  cases hm : (Desktop.pause s).mode <;> simp only [hm]
  · split <;> exact tickSource_of_fields hp rfl rfl rfl
  · split <;> exact tickSource_of_fields hp rfl rfl rfl

theorem tickSource_skipMode {s : TimerState} (h : TickSourceInv s) :
    TickSourceInv (skipMode s) := by
  have hp := tickSource_pause h
  unfold Desktop.skipMode
  cases hm : (Desktop.pause s).mode <;> simp only [hm] <;> exact tickSource_of_fields hp rfl rfl rfl

theorem tickSource_tick {s : TimerState} (h : TickSourceInv s) : TickSourceInv (tick s) := by
  unfold Desktop.tick
  split
  · exact tickSource_of_fields h rfl rfl rfl
  · exact tickSource_timeUp h

theorem tickSource_toggleTimer {s : TimerState} (h : TickSourceInv s) :
    TickSourceInv (toggleTimer s) := by
  unfold Desktop.toggleTimer
  split
  · exact tickSource_pause h
  · exact tickSource_start h

theorem tickSource_fireTimeout {s : TimerState} (h : TickSourceInv s) (id : Nat) :
    TickSourceInv (fireTimeout id s) := by
  unfold Desktop.fireTimeout
  split
  · exact tickSource_start (tickSource_of_fields h rfl rfl rfl)
  · exact h

theorem tickSource_saveSettings {s : TimerState} (h : TickSourceInv s) (fi bi : String)
    (ab af : Bool) : TickSourceInv (saveSettings fi bi ab af s) := by
  unfold Desktop.saveSettings
  cases hr : s.isRunning <;> cases hm : s.mode <;> simp only [hr, hm] <;>
    exact tickSource_of_fields h (by simp [hr]) rfl rfl

theorem loadSettings_host (sf sb saf sab : Option String) (s : TimerState) :
    (loadSettings sf sb saf sab s).isRunning = s.isRunning ∧
    (loadSettings sf sb saf sab s).interval = s.interval ∧
    (loadSettings sf sb saf sab s).intervals = s.intervals := by
  unfold loadSettings
  cases truthyStored sf <;> cases truthyStored sb <;> cases saf <;> cases sab <;>
    cases hr : s.isRunning <;> cases hm : s.mode <;> simp [hr, hm]

theorem tickSource_loadSettings {s : TimerState} (h : TickSourceInv s)
    (sf sb saf sab : Option String) : TickSourceInv (loadSettings sf sb saf sab s) := by
  obtain ⟨h1, h2, h3⟩ := loadSettings_host sf sb saf sab s
  exact tickSource_of_fields h h1 h2 h3

theorem tickSource_step {s : TimerState} (h : TickSourceInv s) (a : Action) :
    TickSourceInv (step s a) := by
  cases a with
  | tick => exact tickSource_tick h
  | start => exact tickSource_start h
  | pause => exact tickSource_pause h
  | toggleTimer => exact tickSource_toggleTimer h
  | skipMode => exact tickSource_skipMode h
  | saveSettings fi bi ab af => exact tickSource_saveSettings h fi bi ab af
  | fireTimeout id => exact tickSource_fireTimeout h id

theorem tickSource_run (actions : List Action) : ∀ {s : TimerState}, TickSourceInv s →
    TickSourceInv (run s actions) := by
  induction actions with
  | nil => intro s h; exact h
  | cons a rest ih => intro s h; exact ih (tickSource_step h a)

theorem tickSource_count {s : TimerState} (h : TickSourceInv s) :
    tickSources s = if s.isRunning then 1 else 0 := by
  unfold TickSourceInv at h
  unfold tickSources
  cases hr : s.isRunning
  · simp_all
  · simp only [hr, if_true] at h ⊢
    obtain ⟨hsome, hlist⟩ := h
    obtain ⟨id, hid⟩ := Option.isSome_iff_exists.1 hsome
    simp [hlist, hid]

end Desktop

namespace Terminal

theorem termTickSource_start {s : TimerState} (h : TickSourceInv s) : TickSourceInv (start s) := by
  unfold TickSourceInv Terminal.start at *
  cases hr : s.isRunning <;> simp_all

theorem termTickSource_pause {s : TimerState} (h : TickSourceInv s) : TickSourceInv (pause s) := by
  unfold TickSourceInv Terminal.pause at *
  cases hr : s.isRunning
  · simp_all
  · simp only [hr, if_true] at h ⊢
    obtain ⟨hsome, hlist⟩ := h
    obtain ⟨id, hid⟩ := Option.isSome_iff_exists.1 hsome
    simp [hlist, hid, clearTimer]

theorem termTickSource_of_fields {s s' : TimerState} (h : TickSourceInv s)
    (h1 : s'.isRunning = s.isRunning) (h2 : s'.interval = s.interval)
    (h3 : s'.intervals = s.intervals) : TickSourceInv s' := by
  unfold TickSourceInv at *
  rw [h1, h2, h3]
  exact h

theorem termTickSource_timeUp {s : TimerState} (h : TickSourceInv s) :
    TickSourceInv (timeUp s) := by
  have hp := termTickSource_pause h
  unfold Terminal.timeUp
  cases hm : (Terminal.pause s).mode <;> simp only [hm] <;> exact termTickSource_of_fields hp rfl rfl rfl

theorem termTickSource_skip {s : TimerState} (h : TickSourceInv s) : TickSourceInv (skip s) := by
  have hp := termTickSource_pause h
  unfold Terminal.skip
  cases hm : (Terminal.pause s).mode <;> simp only [hm] <;> exact termTickSource_of_fields hp rfl rfl rfl

theorem termTickSource_tick {s : TimerState} (h : TickSourceInv s) : TickSourceInv (tick s) := by
  unfold Terminal.tick
  split
  · exact termTickSource_of_fields h rfl rfl rfl
  · exact termTickSource_timeUp h

theorem termTickSource_run (actions : List Action) : ∀ {s : TimerState}, TickSourceInv s →
    TickSourceInv (run s actions) := by
  induction actions with
  | nil => intro s h; exact h
  | cons a rest ih =>
    intro s h
    refine ih ?_
    cases a with
    | tick => exact termTickSource_tick h
    | start => exact termTickSource_start h
    | pause => exact termTickSource_pause h
    | skip => exact termTickSource_skip h

theorem termTickSource_count {s : TimerState} (h : TickSourceInv s) :
    tickSources s = if s.isRunning then 1 else 0 := by
  unfold TickSourceInv at h
  unfold tickSources
  cases hr : s.isRunning
  · simp_all
  · simp only [hr, if_true] at h ⊢
    obtain ⟨hsome, hlist⟩ := h
    obtain ⟨id, hid⟩ := Option.isSome_iff_exists.1 hsome
    simp [hlist, hid]

end Terminal

end Lumi

namespace Lumi

/-- C6: `timeUp()` schedules `start()` after 1000 ms exactly when the new mode
is break and `autoStartBreak` is set, or the new mode is focus and
`autoStartFocus` is set, and schedules nothing otherwise; when that callback
fires next, the timer runs and `currentTime` is the full duration of the new
mode; `skipMode()` schedules nothing. -/
theorem c6_auto_continue (s : Desktop.TimerState) :
    ((Desktop.timeUp s).timeouts =
      if ((Desktop.timeUp s).mode = Mode.brk ∧ s.autoStartBreak = true) ∨
         ((Desktop.timeUp s).mode = Mode.focus ∧ s.autoStartFocus = true)
      then s.timeouts ++ [⟨s.nextId, 1000⟩] else s.timeouts) ∧
    ((((Desktop.timeUp s).mode = Mode.brk ∧ s.autoStartBreak = true) ∨
      ((Desktop.timeUp s).mode = Mode.focus ∧ s.autoStartFocus = true)) →
      (Desktop.fireTimeout s.nextId (Desktop.timeUp s)).isRunning = true ∧
      (Desktop.fireTimeout s.nextId (Desktop.timeUp s)).mode = (Desktop.timeUp s).mode ∧
      (Desktop.fireTimeout s.nextId (Desktop.timeUp s)).currentTime =
        Desktop.durationOf s (Desktop.timeUp s).mode ∧
      (Desktop.fireTimeout s.nextId (Desktop.timeUp s)).totalTime =
        Desktop.durationOf s (Desktop.timeUp s).mode) ∧
    (Desktop.skipMode s).timeouts = s.timeouts := by
  obtain ⟨tm, tc, tt, -, -, -, -⟩ := Desktop.timeUp_fields s
  have hto := Desktop.timeUp_timeouts s
  have hcond : (((Desktop.timeUp s).mode = Mode.brk ∧ s.autoStartBreak = true) ∨
      ((Desktop.timeUp s).mode = Mode.focus ∧ s.autoStartFocus = true)) ↔
      ((s.mode = Mode.focus ∧ s.autoStartBreak = true) ∨
       (s.mode = Mode.brk ∧ s.autoStartFocus = true)) := by
    rw [tm]
    cases s.mode <;> simp [Mode.flip]
  refine ⟨?_, ?_, (Desktop.skipMode_fields s).2.2.2.2.2.2.2⟩
  · rw [hto]
    by_cases hc : (s.mode = Mode.focus ∧ s.autoStartBreak = true) ∨
        (s.mode = Mode.brk ∧ s.autoStartFocus = true)
    · rw [if_pos hc, if_pos (hcond.2 hc)]
    · rw [if_neg hc, if_neg (fun h => hc (hcond.1 h))]
  · intro h
    have hpend : ∃ t ∈ (Desktop.timeUp s).timeouts, t.id = s.nextId := by
      rw [hto, if_pos (hcond.1 h)]
      exact ⟨⟨s.nextId, 1000⟩, by simp, rfl⟩
    rw [Desktop.fireTimeout_pending s.nextId _ hpend]
    obtain ⟨-, -, sc, st, sm, sr, -⟩ := Desktop.start_fields
      { Desktop.timeUp s with
        timeouts := clearTimer (some s.nextId) (Desktop.timeUp s).timeouts }
    rw [sc, st, sm, sr]
    exact ⟨rfl, rfl, by rw [← tm] at tc; exact tc, by rw [← tm] at tt; exact tt⟩

/-- Witness for C6: the default timer with `autoStartBreak` set, at the end of
a focus interval. -/
theorem c6_auto_continue_witness :
    (Desktop.fireTimeout 1
      (Desktop.timeUp { Desktop.initial with autoStartBreak := true })).isRunning = true ∧
    (Desktop.fireTimeout 1
      (Desktop.timeUp { Desktop.initial with autoStartBreak := true })).mode = Mode.brk ∧
    (Desktop.fireTimeout 1
      (Desktop.timeUp { Desktop.initial with autoStartBreak := true })).currentTime =
        JSNum.num 300 ∧
    (Desktop.fireTimeout 1
      (Desktop.timeUp { Desktop.initial with autoStartBreak := true })).totalTime =
        JSNum.num 300 :=
  (c6_auto_continue { Desktop.initial with autoStartBreak := true }).2.1
    (Or.inl ⟨by decide, rfl⟩)

/-- C7: in every state reached from the loaded initial state of the desktop
timer by start, pause, toggleTimer, skipMode, tick, saveSettings and firings
of scheduled starts, and in every state reached from the initial state of the
terminal timer by start, pause, skip and tick, the number of registered
one-second tick sources is 1 when `isRunning` is true and 0 when it is false;
`start()` on a running timer and `pause()` on a paused timer change nothing. -/
theorem c7_tick_source_invariant
    (savedFocus savedBreak savedAutoFocus savedAutoBreak : Option String)
    (actions : List Desktop.Action) (keys : List Terminal.Action) :
    (Desktop.tickSources (Desktop.run (Desktop.loadSettings savedFocus savedBreak
        savedAutoFocus savedAutoBreak Desktop.initial) actions) =
      if (Desktop.run (Desktop.loadSettings savedFocus savedBreak
        savedAutoFocus savedAutoBreak Desktop.initial) actions).isRunning then 1 else 0) ∧
    (Terminal.tickSources (Terminal.run Terminal.initial keys) =
      if (Terminal.run Terminal.initial keys).isRunning then 1 else 0) ∧
    (∀ s : Desktop.TimerState, s.isRunning = true → Desktop.start s = s) ∧
    (∀ s : Desktop.TimerState, s.isRunning = false → Desktop.pause s = s) ∧
    (∀ s : Terminal.TimerState, s.isRunning = true → Terminal.start s = s) ∧
    (∀ s : Terminal.TimerState, s.isRunning = false → Terminal.pause s = s) := by
  refine ⟨?_, ?_, ?_, ?_, ?_, ?_⟩
  · have h0 : Desktop.TickSourceInv Desktop.initial := by decide
    exact Desktop.tickSource_count (Desktop.tickSource_run actions
      (Desktop.tickSource_loadSettings h0 savedFocus savedBreak savedAutoFocus savedAutoBreak))
  · have h0 : Terminal.TickSourceInv Terminal.initial := by decide
    exact Terminal.termTickSource_count (Terminal.termTickSource_run keys h0)
  · intro s h; simp [Desktop.start, h]
  · intro s h; simp [Desktop.pause, h]
  · intro s h; simp [Terminal.start, h]
  · intro s h; simp [Terminal.pause, h]

/-- Witness for C7: `start()` on the started default timers and `pause()` on
the default timers themselves. -/
theorem c7_tick_source_invariant_witness :
    Desktop.start (Desktop.start Desktop.initial) = Desktop.start Desktop.initial ∧
    Desktop.pause Desktop.initial = Desktop.initial ∧
    Terminal.start (Terminal.start Terminal.initial) = Terminal.start Terminal.initial ∧
    Terminal.pause Terminal.initial = Terminal.initial :=
  have h := c7_tick_source_invariant none none none none [] []
  ⟨h.2.2.1 (Desktop.start Desktop.initial) rfl, h.2.2.2.1 Desktop.initial rfl,
   h.2.2.2.2.1 (Terminal.start Terminal.initial) rfl, h.2.2.2.2.2 Terminal.initial rfl⟩

end Lumi

namespace Lumi

/-! ## Persisted settings -/

namespace Desktop

theorem loadSettings_initial (sf sb saf sab : Option String) :
    (loadSettings sf sb saf sab initial).focusDuration =
      (if truthyStored sf = true then parseInt (sf.getD "") else JSNum.num 1500) ∧
    (loadSettings sf sb saf sab initial).breakDuration =
      (if truthyStored sb = true then parseInt (sb.getD "") else JSNum.num 300) ∧
    (loadSettings sf sb saf sab initial).autoStartFocus =
      (match saf with
       | some v => decide (v = "true")
       | none => false) ∧
    (loadSettings sf sb saf sab initial).autoStartBreak =
      (match sab with
       | some v => decide (v = "true")
       | none => false) := by
  unfold loadSettings
  cases htf : truthyStored sf <;> cases htb : truthyStored sb <;> cases saf <;> cases sab <;>
    simp [htf, htb, initial]

end Desktop

/-- C8, as the spec states it, fails: a stored duration that is not numeric is
not treated like an absent one; `loadSettings` stores the `NaN` that `parseInt`
returns for it instead of keeping the default. -/
theorem c8_malformed_duration_not_defaulted :
    (Desktop.loadSettings (some "abc") none none none Desktop.initial).focusDuration =
      JSNum.nan ∧
    (Desktop.loadSettings (some "abc") none none none Desktop.initial).focusDuration ≠
      JSNum.num 1500 ∧
    (Desktop.loadSettings none (some "five") none none Desktop.initial).breakDuration =
      JSNum.nan ∧
    (Desktop.loadSettings none (some "five") none none Desktop.initial).breakDuration ≠
      JSNum.num 300 := by
  decide

/-- C8, amended: for every combination of stored values, `loadSettings` on the
initial state keeps focusDuration = 1500 when the stored focus value is absent
or the empty text, keeps breakDuration = 300 when the stored break value is
absent or the empty text, and keeps autoStartFocus / autoStartBreak false when
their stored values are absent; any other stored duration text is replaced by
what `parseInt` reads in it. -/
theorem c8_absent_values_keep_defaults
    (savedFocus savedBreak savedAutoFocus savedAutoBreak : Option String) :
    ((savedFocus = none ∨ savedFocus = some "") →
      (Desktop.loadSettings savedFocus savedBreak savedAutoFocus savedAutoBreak
        Desktop.initial).focusDuration = JSNum.num 1500) ∧
    ((savedBreak = none ∨ savedBreak = some "") →
      (Desktop.loadSettings savedFocus savedBreak savedAutoFocus savedAutoBreak
        Desktop.initial).breakDuration = JSNum.num 300) ∧
    (savedAutoFocus = none →
      (Desktop.loadSettings savedFocus savedBreak savedAutoFocus savedAutoBreak
        Desktop.initial).autoStartFocus = false) ∧
    (savedAutoBreak = none →
      (Desktop.loadSettings savedFocus savedBreak savedAutoFocus savedAutoBreak
        Desktop.initial).autoStartBreak = false) ∧
    (truthyStored savedFocus = true →
      (Desktop.loadSettings savedFocus savedBreak savedAutoFocus savedAutoBreak
        Desktop.initial).focusDuration = parseInt (savedFocus.getD "")) ∧
    (truthyStored savedBreak = true →
      (Desktop.loadSettings savedFocus savedBreak savedAutoFocus savedAutoBreak
        Desktop.initial).breakDuration = parseInt (savedBreak.getD "")) := by
  obtain ⟨hf, hb, haf, hab⟩ :=
    Desktop.loadSettings_initial savedFocus savedBreak savedAutoFocus savedAutoBreak
  have hempty : truthyStored (some "") = false := by decide
  refine ⟨?_, ?_, ?_, ?_, ?_, ?_⟩
  · rintro (h | h) <;> rw [hf, h]
    · rfl
    · rw [hempty]; rfl
  · rintro (h | h) <;> rw [hb, h]
    · rfl
    · rw [hempty]; rfl
  · intro h; rw [haf, h]
  · intro h; rw [hab, h]
  · intro h; rw [hf, if_pos h]
  · intro h; rw [hb, if_pos h]

/-- Witness for C8 amended: no focus value, an empty break value, no flags;
and two stored durations of 600 and 120 seconds. -/
theorem c8_absent_values_keep_defaults_witness :
    ((Desktop.loadSettings none (some "") none none Desktop.initial).focusDuration =
        JSNum.num 1500 ∧
     (Desktop.loadSettings none (some "") none none Desktop.initial).breakDuration =
        JSNum.num 300 ∧
     (Desktop.loadSettings none (some "") none none Desktop.initial).autoStartFocus = false ∧
     (Desktop.loadSettings none (some "") none none Desktop.initial).autoStartBreak = false) ∧
    ((Desktop.loadSettings (some "600") (some "120") none none Desktop.initial).focusDuration =
        parseInt "600" ∧
     (Desktop.loadSettings (some "600") (some "120") none none Desktop.initial).breakDuration =
        parseInt "120") :=
  have h := c8_absent_values_keep_defaults none (some "") none none
  have k := c8_absent_values_keep_defaults (some "600") (some "120") none none
  ⟨⟨h.1 (Or.inl rfl), h.2.1 (Or.inr rfl), h.2.2.1 rfl, h.2.2.2.1 rfl⟩,
   ⟨k.2.2.2.2.1 (by decide), k.2.2.2.2.2 (by decide)⟩⟩

/-! ## The hide/show handler -/

namespace Visibility

theorem onGlobalMouseMove_pinned (d : Sample) (s : VisState) (h : s.isPinned = true) :
    onGlobalMouseMove d s = s := by
  simp [onGlobalMouseMove, h]

theorem runCallback_pinned (s : VisState) (c : Callback) (h : s.isPinned = true) :
    (runCallback s c).isPinned = true ∧ (runCallback s c).isHidden = s.isHidden ∧
    (runCallback s c).sent = s.sent := by
  cases c <;> simp [runCallback, h]

theorem fire_pinned (id : Nat) (s : VisState) (h : s.isPinned = true) :
    (fire id s).isPinned = true ∧ (fire id s).isHidden = s.isHidden ∧
    (fire id s).sent = s.sent := by
  unfold fire
  split
  · exact ⟨h, rfl, rfl⟩
  · exact runCallback_pinned _ _ h

theorem run_pinned (events : List Event) : ∀ (s : VisState), s.isPinned = true →
    (run s events).isPinned = true ∧ (run s events).isHidden = s.isHidden ∧
    (run s events).sent = s.sent := by
  induction events with
  | nil => intro s h; exact ⟨h, rfl, rfl⟩
  | cons e rest ih =>
    intro s h
    have hstep : (step s e).isPinned = true ∧ (step s e).isHidden = s.isHidden ∧
        (step s e).sent = s.sent := by
      cases e with
      | sample d => simp [step, onGlobalMouseMove_pinned d s h, h]
      | fire id => exact fire_pinned id s h
    obtain ⟨h1, h2, h3⟩ := ih (step s e) hstep.1
    exact ⟨h1, h2.trans hstep.2.1, h3.trans hstep.2.2⟩

end Visibility

/-- C9: from every state with `isPinned = true`, whatever samples reach the
`global-mouse-move` handler and whatever pending debounce or animation-reset
callbacks fire in between, `isHidden` keeps its value and no `show-window` or
`hide-window` message is sent. -/
theorem c9_pinned_suppresses_auto_hide (s : Visibility.VisState) (hp : s.isPinned = true)
    (events : List Visibility.Event) :
    (Visibility.run s events).isHidden = s.isHidden ∧
    (Visibility.run s events).sent = s.sent ∧
    (Visibility.run s events).isPinned = true := by
  obtain ⟨h1, h2, h3⟩ := Visibility.run_pinned events s hp
  exact ⟨h2, h3, h1⟩

end Lumi

namespace Lumi

/-- Witness for C9: a pinned window with a debounced hide and an animation
reset still pending; a sample far from the window, both callbacks firing, and
a sample in the indicator zone. -/
theorem c9_pinned_suppresses_auto_hide_witness :
    (Visibility.run
      { Visibility.initial with
        showHideDebounce := some 1
        isAnimating := true
        timeouts := [⟨1, 300, Visibility.Callback.debouncedHide⟩,
                     ⟨2, 500, Visibility.Callback.animationReset⟩]
        nextId := 3 }
      [Visibility.Event.sample ⟨10, 10, 1920, 800, 180, 1568, 800, 320, 180⟩,
       Visibility.Event.fire 1, Visibility.Event.fire 2,
       Visibility.Event.sample ⟨1900, 850, 1920, 800, 180, 1568, 800, 320, 180⟩]).isHidden =
      false ∧
    (Visibility.run
      { Visibility.initial with
        showHideDebounce := some 1
        isAnimating := true
        timeouts := [⟨1, 300, Visibility.Callback.debouncedHide⟩,
                     ⟨2, 500, Visibility.Callback.animationReset⟩]
        nextId := 3 }
      [Visibility.Event.sample ⟨10, 10, 1920, 800, 180, 1568, 800, 320, 180⟩,
       Visibility.Event.fire 1, Visibility.Event.fire 2,
       Visibility.Event.sample ⟨1900, 850, 1920, 800, 180, 1568, 800, 320, 180⟩]).sent =
      [] :=
  have h := c9_pinned_suppresses_auto_hide
    { Visibility.initial with
      showHideDebounce := some 1
      isAnimating := true
      timeouts := [⟨1, 300, Visibility.Callback.debouncedHide⟩,
                   ⟨2, 500, Visibility.Callback.animationReset⟩]
      nextId := 3 } rfl
    [Visibility.Event.sample ⟨10, 10, 1920, 800, 180, 1568, 800, 320, 180⟩,
     Visibility.Event.fire 1, Visibility.Event.fire 2,
     Visibility.Event.sample ⟨1900, 850, 1920, 800, 180, 1568, 800, 320, 180⟩]
  ⟨h.1, h.2.1⟩

namespace Visibility

theorem onGlobalMouseMove_arms (d : Sample) (s : VisState)
    (hP : s.isPinned = false) (hH : s.isHidden = false) (hA : s.isAnimating = false)
    (hD : s.showHideDebounce = none)
    (hOver : isOverApp d = false) (hZone : isInIndicatorZone d = false) :
    onGlobalMouseMove d s = armed s := by
  simp [onGlobalMouseMove, armed, setTimeout, truthyHandle, hP, hH, hA, hD, hOver, hZone]

theorem onGlobalMouseMove_armed (d : Sample) (s : VisState)
    (hP : s.isPinned = false) (hH : s.isHidden = false) (hA : s.isAnimating = false)
    (hId : 0 < s.nextId)
    (hOver : isOverApp d = false) (hZone : isInIndicatorZone d = false) :
    onGlobalMouseMove d (armed s) = armed s := by
  have : s.nextId ≠ 0 := by omega
  simp [onGlobalMouseMove, armed, truthyHandle, hP, hH, hA, hOver, hZone, this]

theorem feed_armed (samples : List Sample) (s : VisState)
    (hP : s.isPinned = false) (hH : s.isHidden = false) (hA : s.isAnimating = false)
    (hId : 0 < s.nextId)
    (hOut : ∀ d ∈ samples, isOverApp d = false ∧ isInIndicatorZone d = false) :
    feed (armed s) samples = armed s := by
  induction samples with
  | nil => rfl
  | cons d rest ih =>
    have hd := hOut d (List.mem_cons_self _ _)
    unfold feed
    rw [List.foldl_cons, onGlobalMouseMove_armed d s hP hH hA hId hd.1 hd.2]
    exact ih (fun x hx => hOut x (List.mem_cons_of_mem _ hx))

theorem filter_fresh (table : List Pending) (n : Nat) (h : ∀ t ∈ table, t.id < n) :
    table.filter (fun t => !decide (t.id = n)) = table := by
  rw [List.filter_eq_self]
  intro t ht
  have := h t ht
  simp
  omega

theorem find_fresh (table : List Pending) (n : Nat) (h : ∀ t ∈ table, t.id < n) :
    table.find? (fun t => decide (t.id = n)) = none := by
  rw [List.find?_eq_none]
  intro t ht
  have := h t ht
  simp
  omega

theorem fire_armed (s : VisState)
    (hP : s.isPinned = false) (hH : s.isHidden = false) (hA : s.isAnimating = false)
    (hFresh : ∀ t ∈ s.timeouts, t.id < s.nextId) :
    fire s.nextId (armed s) = hiddenAfter s := by
  unfold fire
  have hfind : (armed s).timeouts.find? (fun t => decide (t.id = s.nextId)) =
      some ⟨s.nextId, 300, Callback.debouncedHide⟩ := by
    simp [armed, List.find?_append, find_fresh s.timeouts s.nextId hFresh]
  rw [hfind]
  simp [runCallback, armed, hiddenAfter, clearTimeout, setTimeout, hideApp, hP, hH, hA,
    List.filter_append, filter_fresh s.timeouts s.nextId hFresh]

theorem onGlobalMouseMove_cancels (d : Sample) (s : VisState)
    (hP : s.isPinned = false) (hH : s.isHidden = false) (hA : s.isAnimating = false)
    (hId : 0 < s.nextId) (hFresh : ∀ t ∈ s.timeouts, t.id < s.nextId)
    (hIn : (isOverApp d || isInIndicatorZone d) = true) :
    onGlobalMouseMove d (armed s) =
      { s with showHideDebounce := none, nextId := s.nextId + 1 } := by
  have hne : s.nextId ≠ 0 := by omega
  cases hO : isOverApp d <;> cases hZ : isInIndicatorZone d <;>
    simp [hO, hZ] at hIn <;>
    simp [onGlobalMouseMove, armed, truthyHandle, clearTimeout, hP, hH, hA, hO, hZ, hne,
      List.filter_append, filter_fresh s.timeouts s.nextId hFresh]

theorem onGlobalMouseMove_hidden (d : Sample) (s : VisState)
    (hP : s.isPinned = false) (hH : s.isHidden = true)
    (hZone : isInIndicatorZone d = false) (hD : s.showHideDebounce = none) :
    onGlobalMouseMove d s = s := by
  simp [onGlobalMouseMove, hP, hH, hZone, hD, truthyHandle]

theorem feed_hidden (samples : List Sample) (s : VisState)
    (hP : s.isPinned = false) (hH : s.isHidden = true) (hD : s.showHideDebounce = none)
    (hOut : ∀ d ∈ samples, isOverApp d = false ∧ isInIndicatorZone d = false) :
    feed s samples = s := by
  induction samples with
  | nil => rfl
  | cons d rest ih =>
    have hd := hOut d (List.mem_cons_self _ _)
    unfold feed
    rw [List.foldl_cons, onGlobalMouseMove_hidden d s hP hH hd.2 hD]
    exact ih (fun x hx => hOut x (List.mem_cons_of_mem _ hx))

end Visibility

end Lumi

namespace Lumi

namespace Visibility

theorem outside_iff (d : Sample) :
    outside d = true ↔ isOverApp d = false ∧ isInIndicatorZone d = false := by
  simp [outside]

theorem pendingHides_armed (s : VisState) (h : pendingHides s = 0) :
    pendingHides (armed s) = 1 := by
  unfold pendingHides at *
  simp [armed, List.filter_append, h]

theorem pendingHides_hiddenAfter (s : VisState) (h : pendingHides s = 0) :
    pendingHides (hiddenAfter s) = 0 := by
  unfold pendingHides at *
  simp only [hiddenAfter, List.filter_append, List.length_append, h]
  simp

end Visibility

/-- C10: from a state that is not pinned, not hidden, not animating and has no
hide pending (handles of the host being positive and fresh), for every
sequence of samples that are all outside the padded window box and outside the
indicator zone: the first sample schedules one hide with a delay of 300 ms,
the later samples schedule nothing further, so exactly one hide is pending;
when it fires, `isHidden` is true and exactly one `hide-window` message has
been sent, and further such samples send nothing more; a sample over the
window or in the indicator zone that arrives before it fires cancels it. -/
theorem c10_debounced_hide_once (s : Visibility.VisState)
    (hP : s.isPinned = false) (hH : s.isHidden = false) (hA : s.isAnimating = false)
    (hD : s.showHideDebounce = none) (hNone : Visibility.pendingHides s = 0)
    (hId : 0 < s.nextId) (hFresh : ∀ t ∈ s.timeouts, t.id < s.nextId)
    (first : Visibility.Sample) (later : List Visibility.Sample)
    (hFirst : Visibility.outside first = true)
    (hLater : ∀ d ∈ later, Visibility.outside d = true) :
    Visibility.onGlobalMouseMove first s = Visibility.armed s ∧
    Visibility.feed s (first :: later) = Visibility.armed s ∧
    Visibility.pendingHides (Visibility.feed s (first :: later)) = 1 ∧
    (Visibility.fire s.nextId (Visibility.feed s (first :: later))).isHidden = true ∧
    (Visibility.fire s.nextId (Visibility.feed s (first :: later))).sent =
      s.sent ++ [Visibility.Command.hideWindow] ∧
    Visibility.pendingHides (Visibility.fire s.nextId (Visibility.feed s (first :: later))) =
      0 ∧
    (∀ more : List Visibility.Sample, (∀ d ∈ more, Visibility.outside d = true) →
      Visibility.feed (Visibility.fire s.nextId (Visibility.feed s (first :: later))) more =
        Visibility.fire s.nextId (Visibility.feed s (first :: later))) ∧
    (∀ d : Visibility.Sample, Visibility.outside d = false →
      Visibility.onGlobalMouseMove d (Visibility.feed s (first :: later)) =
        { s with nextId := s.nextId + 1 } ∧
      Visibility.pendingHides
        (Visibility.onGlobalMouseMove d (Visibility.feed s (first :: later))) = 0) := by
  have hf := (Visibility.outside_iff first).1 hFirst
  have hl : ∀ d ∈ later, Visibility.isOverApp d = false ∧
      Visibility.isInIndicatorZone d = false :=
    fun d hd => (Visibility.outside_iff d).1 (hLater d hd)
  have h1 := Visibility.onGlobalMouseMove_arms first s hP hH hA hD hf.1 hf.2
  have h2 : Visibility.feed s (first :: later) = Visibility.armed s := by
    show Visibility.feed (Visibility.onGlobalMouseMove first s) later = Visibility.armed s
    rw [h1]
    exact Visibility.feed_armed later s hP hH hA hId hl
  have h3 := Visibility.fire_armed s hP hH hA hFresh
  refine ⟨h1, h2, ?_, ?_, ?_, ?_, ?_, ?_⟩
  · rw [h2]; exact Visibility.pendingHides_armed s hNone
  · rw [h2, h3]; rfl
  · rw [h2, h3]; rfl
  · rw [h2, h3]; exact Visibility.pendingHides_hiddenAfter s hNone
  · intro more hmore
    rw [h2, h3]
    exact Visibility.feed_hidden more (Visibility.hiddenAfter s) hP rfl rfl
      (fun d hd => (Visibility.outside_iff d).1 (hmore d hd))
  · intro d hd
    have hin : (Visibility.isOverApp d || Visibility.isInIndicatorZone d) = true := by
      cases hO : Visibility.isOverApp d <;> cases hZ : Visibility.isInIndicatorZone d <;>
        simp [Visibility.outside, hO, hZ] at hd ⊢
    have hc := Visibility.onGlobalMouseMove_cancels d s hP hH hA hId hFresh hin
    have hs : ({ s with showHideDebounce := none, nextId := s.nextId + 1 } :
        Visibility.VisState) = { s with nextId := s.nextId + 1 } := by
      rw [← hD]
    rw [h2, hc, hs]
    exact ⟨rfl, hNone⟩

/-- Witness for C10: the unpinned visible window, two samples in the top left
corner of the screen, then the hide firing. -/
theorem c10_debounced_hide_once_witness :
    (Visibility.fire 1
      (Visibility.feed { Visibility.initial with isPinned := false }
        [⟨10, 10, 1920, 800, 180, 1568, 800, 320, 180⟩,
         ⟨12, 11, 1920, 800, 180, 1568, 800, 320, 180⟩])).isHidden = true ∧
    (Visibility.fire 1
      (Visibility.feed { Visibility.initial with isPinned := false }
        [⟨10, 10, 1920, 800, 180, 1568, 800, 320, 180⟩,
         ⟨12, 11, 1920, 800, 180, 1568, 800, 320, 180⟩])).sent =
      [Visibility.Command.hideWindow] :=
  have h := c10_debounced_hide_once { Visibility.initial with isPinned := false }
    rfl rfl rfl rfl (by decide) (by decide) (by decide)
    ⟨10, 10, 1920, 800, 180, 1568, 800, 320, 180⟩
    [⟨12, 11, 1920, 800, 180, 1568, 800, 320, 180⟩] (by decide) (by decide)
  ⟨h.2.2.2.1, h.2.2.2.2.1⟩

end Lumi

namespace Lumi

/-! ## The clock text of the terminal timer -/

/-- C11 fails on the code: `formatTime(3665)` is `"01:01:05"`, the hours
padded to two digits like the minutes and the seconds, and not the `"1:01:05"`
that the comment above the function gives as its example. -/
theorem c11_formatTime_pads_hours :
    Terminal.formatTime 3665 = "01:01:05" ∧ Terminal.formatTime 3665 ≠ "1:01:05" := by
  decide

end Lumi
